import Mathlib

/-!
# Verification of the Peppol bookkeeping codec

A shallow embedding of the invoice codec in `peppolling/peppol_bookkeeping.py`:
the UBL invoice generator `generate_invoice_xml` and the extractor core of
`process_incoming_invoice`, together with proofs of the frozen claims about
them.

Modelling conventions:
* Python `Decimal` values are embedded as `Dec`: an integer mantissa together
  with a power-of-ten scale, i.e. the value `mant / 10 ^ exp`.  All arithmetic
  the source performs on `Decimal`s (addition, multiplication, comparison,
  `quantize` to two places with `ROUND_HALF_UP`) is exact at these sizes, and
  is embedded exactly.  (Python's 28-significant-digit context limit is far
  from being reached by any value in this development and is not modelled.
  A `Decimal` negative zero renders as `"-0.00"`; the sign of an exact zero
  is modelled only where it arises directly from rounding a negative value,
  see `fmt_amount`.)
* Python `float` parsing and addition in the extractor are embedded as exact
  decimal parsing and exact addition.  The claims about the extractor speak
  of equality "to the cent"; binary floating point represents the two-decimal
  strings involved to within 2⁻⁴⁵ of a cent, so exact decimal arithmetic is
  an adequate model at the granularity of every claim.
* XML documents are trees of elements with a tag, attributes, optional text
  and a child list.  Tags carry the namespace prefix (`cbc:`/`cac:`) under
  the fixed prefix binding that both the generator and the extractor use for
  the same OASIS namespace URIs, so prefixed-tag equality coincides with
  namespace-qualified matching in the source.
-/

set_option synthInstance.maxSize 1024

namespace Peppol

instance {ε : Type u} {α : Type v} [DecidableEq ε] [DecidableEq α] :
    DecidableEq (Except ε α) := fun x y =>
  match x, y with
  | .ok a, .ok b => if h : a = b then .isTrue (by simp [h]) else .isFalse (by simp [h])
  | .ok _, .error _ => .isFalse (by simp)
  | .error _, .ok _ => .isFalse (by simp)
  | .error e, .error f => if h : e = f then .isTrue (by simp [h]) else .isFalse (by simp [h])

/-! ## Decimal numbers (Python `decimal.Decimal`) -/

/-- An exact decimal number: the value `mant / 10 ^ exp`.
`Decimal("12.10")` is `⟨1210, 2⟩`. -/
structure Dec where
  mant : ℤ
  exp : ℕ
deriving DecidableEq, Repr

/-- Shorthand constructor: `dec m e` is the decimal `m / 10 ^ e`. -/
def dec (m : ℤ) (e : ℕ) : Dec := ⟨m, e⟩

/-- The rational value of a decimal. -/
def Dec.toRat (x : Dec) : ℚ := (x.mant : ℚ) / 10 ^ x.exp

/-- Exact decimal addition: align to the larger scale.  This is Python
`Decimal.__add__`, which is exact and keeps the finer of the two scales. -/
def Dec.add (a b : Dec) : Dec :=
  let e := max a.exp b.exp
  ⟨a.mant * 10 ^ (e - a.exp) + b.mant * 10 ^ (e - b.exp), e⟩

/-- Exact decimal multiplication (Python `Decimal.__mul__`). -/
def Dec.mul (a b : Dec) : Dec := ⟨a.mant * b.mant, a.exp + b.exp⟩

/-- Numeric comparison of decimals (Python `Decimal.__lt__`), by
cross-multiplication with the positive denominators. -/
def Dec.blt (a b : Dec) : Bool := a.mant * 10 ^ b.exp < b.mant * 10 ^ a.exp

/-- Numeric equality of decimals (Python `Decimal.__eq__`): `0.21 == 0.210`.
Python `dict` keys compare with exactly this equality. -/
def Dec.beq (a b : Dec) : Bool := a.mant * 10 ^ b.exp == b.mant * 10 ^ a.exp

/-- The value of a decimal in cents, rounded half-away-from-zero
(`Decimal.quantize(Decimal("0.01"), rounding=ROUND_HALF_UP)`).
For a scale within two places the value is an exact number of cents;
otherwise the excess digits are divided away, rounding ties away from
zero. -/
def Dec.cents (x : Dec) : ℤ :=
  if x.exp ≤ 2 then x.mant * 10 ^ (2 - x.exp)
  else
    let d : ℕ := 10 ^ (x.exp - 2)
    let q : ℕ := (2 * x.mant.natAbs + d) / (2 * d)
    if x.mant < 0 then -(q : ℤ) else (q : ℤ)

/-- `Decimal.quantize(Decimal("0.01"), rounding=ROUND_HALF_UP)`: the result
carries scale 2. -/
def round2 (x : Dec) : Dec := ⟨x.cents, 2⟩

/-! ## Digit strings -/

/-- The decimal-digit character for `n < 10`. -/
def digitChar (n : ℕ) : Char := Char.ofNat (48 + n)

/-- Numeric value of a digit character. -/
def digitVal (c : Char) : ℕ := c.toNat - 48

/-- The number denoted by a digit list, most significant first. -/
def digitsToNat (cs : List Char) : ℕ := cs.foldl (fun a c => a * 10 + digitVal c) 0

/-- Digit list of a natural number, most significant first, driven by
explicit fuel so that it is structurally recursive. -/
def natDigitsGo (fuel : ℕ) (n : ℕ) : List Char :=
  match fuel with
  | 0 => []
  | fuel + 1 =>
    if n < 10 then [digitChar n] else natDigitsGo fuel (n / 10) ++ [digitChar (n % 10)]

/-- Digit list of a natural number, most significant first (`str` of a
non-negative integer). -/
def natDigits (n : ℕ) : List Char := natDigitsGo (n + 1) n

/-- Two-digit rendering of `n < 100`, zero-padded. -/
def twoDigits (n : ℕ) : List Char := if n < 10 then ['0', digitChar n] else natDigits n

/-- Rendering of an integer number of cents with exactly two fractional
digits, as `str` of a scale-2 `Decimal`: sign, integer part, `'.'`,
two-digit cent part. -/
def centsChars (c : ℤ) : List Char :=
  (if c < 0 then ['-'] else []) ++ natDigits (c.natAbs / 100) ++ '.' :: twoDigits (c.natAbs % 100)

/-- `_fmt_amount`: `str(value.quantize(Decimal("0.01"), rounding=ROUND_HALF_UP))`.
Always has exactly two fractional digits.  A strictly negative value whose
rounding is zero cents renders, as in Python, with the preserved sign as
`"-0.00"`. -/
def fmt_amount (x : Dec) : String :=
  let c := x.cents
  ⟨(if x.mant < 0 && c == 0 then ['-'] else []) ++ centsChars c⟩

/-! ## XML trees (the fragment of `lxml.etree` the source uses) -/

/-- An XML element: tag (namespace prefix included), attributes, optional
text, children.  `etree.SubElement` appends children in program order. -/
inductive Xml where
  | elem (tag : String) (attrs : List (String × String)) (text : Option String)
      (children : List Xml)

instance : Inhabited Xml := ⟨.elem "" [] none []⟩

def Xml.tag : Xml → String
  | .elem t _ _ _ => t

def Xml.text : Xml → Option String
  | .elem _ _ t _ => t

def Xml.children : Xml → List Xml
  | .elem _ _ _ c => c

/-- An element with text and no children. -/
def leaf (tag text : String) : Xml := .elem tag [] (some text) []

/-- An element with one attribute, text, and no children. -/
def leafA (tag attr value text : String) : Xml := .elem tag [(attr, value)] (some text) []

/-- A monetary element: `currencyID="EUR"` attribute, formatted amount text. -/
def amountElem (tag : String) (x : Dec) : Xml := leafA tag "currencyID" "EUR" (fmt_amount x)

/-- The children of `x` whose tag is `tag`, in document order. -/
def childrenNamed (x : Xml) (tag : String) : List Xml :=
  x.children.filter (fun c => c.tag = tag)

/-- All elements matching a `/`-separated child path, in document order:
`ElementTree.findall` for paths without `//` or attributes. -/
def findAllPath (x : Xml) : List String → List Xml
  | [] => [x]
  | t :: rest => (childrenNamed x t).flatMap (fun c => findAllPath c rest)

/-- `ElementTree.findtext`: the text of the first element matching the path,
`""` if that element has no text, and `none` (Python `None`) if there is no
matching element. -/
def findtext (x : Xml) (path : List String) : Option String :=
  (findAllPath x path).head?.map (fun e => e.text.getD "")

/-! ## Data model -/

/-- A dynamic Python value appearing in a line-item dict field that the
source passes through `Decimal(str(value))` / `float(value)`: either a value
whose string form denotes the decimal `d`, or a non-numeric value whose
string form `s` makes the conversion raise. -/
inductive PyVal where
  | num (d : Dec)
  | raw (s : String)
deriving DecidableEq, Repr

/-- The `User` rows the generator reads (`company` is non-nullable, the rest
optional). -/
structure User where
  company : String
  vat_number : Option String := none
  country_code : Option String := some "BE"
  street : Option String := none
  city : Option String := none
  postal_code : Option String := none
  peppol_id : Option String := none
deriving DecidableEq, Repr

/-- A line-item dict.  A field holding `none` models an absent key (or a
`None` value, for the string fields). -/
structure Item where
  name : Option String := none
  description : Option String := none
  quantity : Option PyVal := none
  unit_price : Option PyVal := none
  vat_pct : Option PyVal := none
deriving DecidableEq, Repr

/-- Python `a or b` on an optional string: the default replaces both `None`
and the empty (falsy) string. -/
def pyOr (v : Option String) (d : String) : String :=
  match v with
  | none => d
  | some s => if s = "" then d else s

/-- Python truthiness of an optional string: `none` for `None` and `""`. -/
def truthy (v : Option String) : Option String :=
  match v with
  | none => none
  | some s => if s = "" then none else some s

/-! ## Invoice generation (`generate_invoice_xml`) -/

/-- `_d0` / `Decimal(str(value))`: exact conversion, raising on a
non-numeric value. -/
def d0 (v : PyVal) : Except String Dec :=
  match v with
  | .num d => .ok d
  | .raw s => .error ("InvalidOperation: " ++ s)

/-- `_d2`: exact conversion followed by `quantize` to two places,
`ROUND_HALF_UP`. -/
def d2 (v : PyVal) : Except String Dec := do
  return round2 (← d0 v)

/-- The per-item numbers the generator computes, in source order:
full-precision quantity, rounded unit price, rounded line total, clamped VAT
rate, exact (unrounded) line VAT. -/
structure ItemNums where
  quantity : Dec
  unit_price : Dec
  line_total : Dec
  vat_pct : Dec
  vat_amount : Dec
deriving DecidableEq, Repr

/-- One iteration of the item loop:
`quantity = d0(item.get("quantity", 0))`,
`unit_price = d2(item.get("unit_price", 0))`,
`line_total = d2(quantity * unit_price)`,
`vat_pct = Decimal(str(item.get("vat_pct", 0)))` clamped at zero,
`vat_amount = line_total * vat_pct`. -/
def itemNums (item : Item) : Except String ItemNums := do
  let quantity ← d0 (item.quantity.getD (.num (dec 0 0)))
  let unit_price ← d2 (item.unit_price.getD (.num (dec 0 0)))
  let line_total := round2 (quantity.mul unit_price)
  let vat0 ← d0 (item.vat_pct.getD (.num (dec 0 0)))
  let vat_pct := if vat0.blt (dec 0 0) then dec 0 0 else vat0
  return ⟨quantity, unit_price, line_total, vat_pct, line_total.mul vat_pct⟩

/-- The item loop over the whole list, failing at the first malformed item
exactly as the Python `for` raises out of `generate_invoice_xml`. -/
def mapItems : List Item → Except String (List ItemNums)
  | [] => .ok []
  | it :: rest => do
    let n ← itemNums it
    let ns ← mapItems rest
    return n :: ns

/-- One VAT group: the rate key as first inserted, accumulated taxable base,
accumulated tax. -/
structure VatGroup where
  key : Dec
  taxable : Dec
  tax : Dec
deriving DecidableEq, Repr

/-- `vat_groups[vat_pct]["taxable"] += line_total` and
`...["tax"] += vat_amount` on an insertion-ordered association list, which is
how a Python `defaultdict` (3.7+ `dict`) behaves: the key is looked up by
numeric equality, and a new key is appended at the end. -/
def addGroup (gs : List VatGroup) (rate taxable tax : Dec) : List VatGroup :=
  match gs with
  | [] => [⟨rate, (dec 0 2).add taxable, (dec 0 2).add tax⟩]
  | g :: rest =>
    if g.key.beq rate then ⟨g.key, g.taxable.add taxable, g.tax.add tax⟩ :: rest
    else g :: addGroup rest rate taxable tax

/-- The accumulated totals of the computation loop. -/
structure Totals where
  groups : List VatGroup
  total_without_tax : Dec
  total_tax : Dec
deriving DecidableEq, Repr

/-- One step of the totals loop (source lines 294-298). -/
def stepTotals (t : Totals) (n : ItemNums) : Totals :=
  ⟨addGroup t.groups n.vat_pct n.line_total n.vat_amount,
   t.total_without_tax.add n.line_total,
   t.total_tax.add n.vat_amount⟩

/-- The whole totals loop, from `Decimal("0.00")` accumulators. -/
def foldTotals (ns : List ItemNums) : Totals :=
  ns.foldl stepTotals ⟨[], dec 0 2, dec 0 2⟩

/-- `computeTotals` = parse every item, then accumulate. -/
def computeTotals (items : List Item) : Except String Totals := do
  return foldTotals (← mapItems items)

/-- The `AccountingSupplierParty` block (source lines 230-256). -/
def supplierPartyXml (supplier : User) : Xml :=
  .elem "cac:AccountingSupplierParty" [] none [
    .elem "cac:Party" [] none (
      (match truthy supplier.peppol_id with
       | some pid => [leafA "cbc:EndpointID" "schemeID" ((pid.splitOn ":").headD "") pid]
       | none => []) ++
      [.elem "cac:PartyIdentification" [] none
         [leafA "cbc:ID" "schemeID" "0208" (pyOr supplier.vat_number "0000000000")],
       .elem "cac:PartyName" [] none [leaf "cbc:Name" supplier.company],
       .elem "cac:PostalAddress" [] none [
         leaf "cbc:StreetName" (pyOr supplier.street ""),
         leaf "cbc:CityName" (pyOr supplier.city ""),
         leaf "cbc:PostalZone" (pyOr supplier.postal_code ""),
         .elem "cac:Country" [] none
           [leaf "cbc:IdentificationCode" (pyOr supplier.country_code "BE")]],
       .elem "cac:PartyTaxScheme" [] none [
         leaf "cbc:CompanyID" (pyOr supplier.vat_number ""),
         .elem "cac:TaxScheme" [] none [leaf "cbc:ID" "VAT"]],
       .elem "cac:PartyLegalEntity" [] none
         [leaf "cbc:RegistrationName" supplier.company]])]

/-- The `AccountingCustomerParty` block (source lines 259-277). -/
def customerPartyXml (buyer : User) : Xml :=
  .elem "cac:AccountingCustomerParty" [] none [
    .elem "cac:Party" [] none (
      (match truthy buyer.peppol_id with
       | some pid => [leafA "cbc:EndpointID" "schemeID" ((pid.splitOn ":").headD "") pid]
       | none => []) ++
      [.elem "cac:PartyName" [] none [leaf "cbc:Name" buyer.company],
       .elem "cac:PostalAddress" [] none [
         leaf "cbc:StreetName" (pyOr buyer.street ""),
         leaf "cbc:CityName" (pyOr buyer.city ""),
         leaf "cbc:PostalZone" (pyOr buyer.postal_code ""),
         .elem "cac:Country" [] none
           [leaf "cbc:IdentificationCode" (pyOr buyer.country_code "BE")]],
       .elem "cac:PartyLegalEntity" [] none
         [leaf "cbc:RegistrationName" buyer.company]])]

/-- One `TaxSubtotal` element (source lines 304-313). -/
def taxSubtotalXml (g : VatGroup) : Xml :=
  .elem "cac:TaxSubtotal" [] none [
    amountElem "cbc:TaxableAmount" g.taxable,
    amountElem "cbc:TaxAmount" g.tax,
    .elem "cac:TaxCategory" [] none [
      leaf "cbc:ID" "S",
      leaf "cbc:Percent" (fmt_amount (g.key.mul (dec 100 0))),
      .elem "cac:TaxScheme" [] none [leaf "cbc:ID" "VAT"]]]

/-- The `TaxTotal` element: rounded exact total tax, then one subtotal per
group in insertion order. -/
def taxTotalXml (t : Totals) : Xml :=
  .elem "cac:TaxTotal" [] none
    (amountElem "cbc:TaxAmount" t.total_tax :: t.groups.map taxSubtotalXml)

/-- The `LegalMonetaryTotal` element (source lines 320-324). -/
def legalMonetaryXml (t : Totals) : Xml :=
  .elem "cac:LegalMonetaryTotal" [] none [
    amountElem "cbc:LineExtensionAmount" t.total_without_tax,
    amountElem "cbc:TaxExclusiveAmount" t.total_without_tax,
    amountElem "cbc:TaxInclusiveAmount" (t.total_without_tax.add t.total_tax),
    amountElem "cbc:PayableAmount" (t.total_without_tax.add t.total_tax)]

/-- Canonical rendering of a decimal, used only for `str(quantity)` in
`InvoicedQuantity`, a node no claim reads.  (Python renders with the scale of
the original literal; the model renders mantissa and scale directly.) -/
def decStr (x : Dec) : String :=
  ⟨natDigits x.mant.natAbs⟩ ++ (if x.exp = 0 then "" else "e-" ++ (⟨natDigits x.exp⟩ : String))

/-- One `InvoiceLine` element (source lines 327-356), for the 1-based index
`idx`. -/
def invoiceLineXml (idx : ℕ) (item : Item) (n : ItemNums) : Xml :=
  let desc := item.description.getD ""
  let name0 := item.name.getD ""
  let item_name := if name0 ≠ "" then name0 else if desc ≠ "" then desc
    else "Item " ++ ⟨natDigits idx⟩
  .elem "cac:InvoiceLine" [] none [
    leaf "cbc:ID" ⟨natDigits idx⟩,
    leafA "cbc:InvoicedQuantity" "unitCode" "EA" (decStr n.quantity),
    amountElem "cbc:LineExtensionAmount" n.line_total,
    .elem "cac:Item" [] none (
      (if desc ≠ "" then [leaf "cbc:Description" desc] else []) ++
      [leaf "cbc:Name" item_name,
       .elem "cac:ClassifiedTaxCategory" [] none [
         leaf "cbc:ID" "S",
         leaf "cbc:Percent" (fmt_amount (n.vat_pct.mul (dec 100 0))),
         .elem "cac:TaxScheme" [] none [leaf "cbc:ID" "VAT"]]]),
    .elem "cac:Price" [] none [amountElem "cbc:PriceAmount" n.unit_price]]

/-- The `InvoiceLine` elements for `enumerate(items, start=1)`. -/
def invoiceLines : List Item → List ItemNums → ℕ → List Xml
  | it :: irest, n :: nrest, idx => invoiceLineXml idx it n :: invoiceLines irest nrest (idx + 1)
  | _, _, _ => []

/-- The fixed header leaves and the two party blocks (source lines 216-277). -/
def headerElems (supplier buyer : User) (items : List Item)
    (invoice_id issue_date : String) : List Xml :=
  [leaf "cbc:CustomizationID"
     "urn:cen.eu:en16931:2017#compliant#urn:fdc:peppol.eu:2017:poacc:billing:3.0",
   leaf "cbc:ProfileID" "urn:fdc:peppol.eu:2017:poacc:billing:01:1.0",
   leaf "cbc:ID" invoice_id,
   leaf "cbc:IssueDate" issue_date,
   leaf "cbc:InvoiceTypeCode" "380",
   leaf "cbc:DocumentCurrencyCode" "EUR",
   leaf "cbc:LineCountNumeric" ⟨natDigits items.length⟩,
   leaf "cbc:BuyerReference" buyer.company,
   supplierPartyXml supplier,
   customerPartyXml buyer]

/-- The trailing `PaymentMeans` element. -/
def paymentMeansXml (due_date : String) : Xml :=
  .elem "cac:PaymentMeans" [] none [
    leaf "cbc:PaymentMeansCode" "31",
    leaf "cbc:PaymentDueDate" due_date]

/-- The complete generated document for parsed item numbers `ns`. -/
def buildInvoice (supplier buyer : User) (items : List Item) (t : Totals)
    (ns : List ItemNums) (invoice_id issue_date due_date : String) : Xml :=
  .elem "Invoice" [] none
    (headerElems supplier buyer items invoice_id issue_date
      ++ [taxTotalXml t,
          .elem "cac:PaymentTerms" [] none [leaf "cbc:Note" ("Payment due by " ++ due_date)],
          legalMonetaryXml t]
      ++ invoiceLines items ns 1
      ++ [paymentMeansXml due_date])

/-- `generate_invoice_xml`: compute the totals (raising out of the function
on a malformed numeric field, with no document returned), then build the
document tree.  Dates are passed as the strings the source interpolates; the
30-day due-date default (source lines 210-211) happens before the modelled
fragment and no claim depends on it.  The serialized bytes of the tree
(source line 363) are a faithful function of it. -/
def generate_invoice_xml (supplier buyer : User) (items : List Item)
    (invoice_id issue_date due_date : String) : Except String Xml := do
  let t ← computeTotals items
  let ns ← mapItems items
  return buildInvoice supplier buyer items t ns invoice_id issue_date due_date

/-! ## Invoice extraction (`process_incoming_invoice`, parsing core) -/

/-- Splitting a character list at every `'.'` (`"a.b".split` shape used to
mirror Python `float` grammar on the strings at hand). -/
def splitDot : List Char → List (List Char)
  | [] => [[]]
  | c :: rest =>
    if c = '.' then [] :: splitDot rest
    else
      match splitDot rest with
      | h :: t => (c :: h) :: t
      | [] => [[c]]

/-- The error `float()` raises. -/
def floatErr (s : String) : String := "could not convert string to float: " ++ s

/-- The numeric interpretation of the split-at-`'.'` parts of a float
literal: digits with an optional fractional part, at least one digit in
total, with the sign `neg` already stripped. -/
def pyFloatParts (neg : Bool) (s : String) : List (List Char) → Except String Dec
  | [ip] =>
    if ip ≠ [] ∧ ip.all Char.isDigit then
      .ok ⟨(if neg then -1 else 1) * (digitsToNat ip : ℤ), 0⟩
    else .error (floatErr s)
  | [ip, fp] =>
    if (ip ≠ [] ∨ fp ≠ []) ∧ ip.all Char.isDigit ∧ fp.all Char.isDigit then
      .ok ⟨(if neg then -1 else 1) * ((digitsToNat ip * 10 ^ fp.length + digitsToNat fp : ℕ) : ℤ),
           fp.length⟩
    else .error (floatErr s)
  | _ => .error (floatErr s)

/-- Python `float(s)` on the decimal strings relevant here: optional sign,
digits with an optional fractional part (at least one digit in total),
parsed exactly.  Anything else raises `ValueError`.  (Exponent forms,
`inf`/`nan`, underscores and surrounding whitespace, which no relevant
string exhibits, also parse in Python but are not modelled; binary-float
representation error, below a hundredth of a cent on every string handled
here, is not modelled.) -/
def pyFloat (s : String) : Except String Dec :=
  let cs := s.data
  pyFloatParts (cs.head? == some '-') s
    (splitDot (if cs.head? = some '-' ∨ cs.head? = some '+' then cs.tail else cs))

/-- The extracted summary: the fields of `process_incoming_invoice` computed
from the document alone.  String fields hold `none` where `findtext`
returned Python `None`. -/
structure InvoiceSummary where
  invoice_id : Option String
  issue_date : Option String
  currency : Option String
  supplier : Option String
  buyer : Option String
  total : Dec
  vat : Dec
deriving DecidableEq, Repr

/-- The VAT loop (source lines 450-454): over every
`cac:TaxTotal/cac:TaxSubtotal` match, add `float` of a truthy
`cbc:TaxAmount` text, skip an absent or empty one, raise on a non-numeric
one. -/
def sumVat : List Xml → Dec → Except String Dec
  | [], acc => .ok acc
  | ts :: rest, acc =>
    match findtext ts ["cbc:TaxAmount"] with
    | none => sumVat rest acc
    | some v =>
      if v = "" then sumVat rest acc
      else do sumVat rest (acc.add (← pyFloat v))

/-- Source line 448:
`total_amount = float(total_amount) if total_amount else 0.0` — an absent or
empty (falsy) text gives `0.0`, a present non-empty text goes through
`float` and can raise. -/
def parseTotal (t? : Option String) : Except String Dec :=
  match t? with
  | none => pure (dec 0 0)
  | some t => if t = "" then pure (dec 0 0) else pyFloat t

/-- The parsing core of `process_incoming_invoice` (source lines 433-455):
from well-formed XML (a value of `Xml`; non-well-formed bytes raise in
`etree.fromstring` before this fragment) to the summary.  `float` failures
raise out of the function. -/
def process_incoming_invoice (root : Xml) : Except String InvoiceSummary := do
  let invoice_id := findtext root ["cbc:ID"]
  let issue_date := findtext root ["cbc:IssueDate"]
  let currency := findtext root ["cbc:DocumentCurrencyCode"]
  let supplier_name :=
    findtext root ["cac:AccountingSupplierParty", "cac:Party", "cac:PartyName", "cbc:Name"]
  let buyer_name :=
    findtext root ["cac:AccountingCustomerParty", "cac:Party", "cac:PartyName", "cbc:Name"]
  let total ← parseTotal (findtext root ["cac:LegalMonetaryTotal", "cbc:PayableAmount"])
  let vat ← sumVat (findAllPath root ["cac:TaxTotal", "cac:TaxSubtotal"]) (dec 0 0)
  return ⟨invoice_id, issue_date, currency, supplier_name, buyer_name, total, vat⟩

/-! ## Document accessors used to state the claims -/

/-- The `TaxSubtotal` elements below the top-level `TaxTotal` elements. -/
def topTaxSubtotals (doc : Xml) : List Xml :=
  findAllPath doc ["cac:TaxTotal", "cac:TaxSubtotal"]

/-- The `TaxAmount` text of each such subtotal. -/
def subtotalTaxAmountTexts (doc : Xml) : List (Option String) :=
  (topTaxSubtotals doc).map (fun ts => findtext ts ["cbc:TaxAmount"])

/-- The `Percent` text of each such subtotal's category. -/
def subtotalPercentTexts (doc : Xml) : List (Option String) :=
  (topTaxSubtotals doc).map (fun ts => findtext ts ["cac:TaxCategory", "cbc:Percent"])

/-- The document's top-level `TaxTotal/TaxAmount` text. -/
def topTaxAmountText (doc : Xml) : Option String :=
  findtext doc ["cac:TaxTotal", "cbc:TaxAmount"]

/-- A `LegalMonetaryTotal` amount text. -/
def monetaryText (doc : Xml) (tag : String) : Option String :=
  findtext doc ["cac:LegalMonetaryTotal", tag]

/-- The `BuyerReference` text. -/
def buyerReferenceText (doc : Xml) : Option String :=
  findtext doc ["cbc:BuyerReference"]

/-- The `LineExtensionAmount` text of each `InvoiceLine`, in order. -/
def lineExtensionTexts (doc : Xml) : List (Option String) :=
  (childrenNamed doc "cac:InvoiceLine").map (fun l => findtext l ["cbc:LineExtensionAmount"])

/-- The `ClassifiedTaxCategory/Percent` text of each `InvoiceLine`. -/
def linePercentTexts (doc : Xml) : List (Option String) :=
  (childrenNamed doc "cac:InvoiceLine").map
    (fun l => findtext l ["cac:Item", "cac:ClassifiedTaxCategory", "cbc:Percent"])

/-! ## Derived definitions used in stating and settling the claims -/

/-- The two-part body of every `fmt_amount` output, after sign stripping. -/
def centsBody (a : ℕ) : List Char := natDigits (a / 100) ++ '.' :: twoDigits (a % 100)

/-- Whether an item has a non-numeric (raw) value in one of the three
numeric fields. -/
def Item.hasRawNumeric (it : Item) : Bool :=
  (match it.quantity with | some (.raw _) => true | _ => false) ||
  (match it.unit_price with | some (.raw _) => true | _ => false) ||
  (match it.vat_pct with | some (.raw _) => true | _ => false)

/-- The rate keys of the groups, in insertion order. -/
def keysOf (gs : List VatGroup) : List Dec := gs.map VatGroup.key

/-- Membership under Python `Decimal` (numeric) equality. -/
def memB (r : Dec) (ks : List Dec) : Bool := ks.any (fun k => k.beq r)

/-- First-occurrence deduplication of a rate list, under numeric equality,
starting from the keys already `seen`. -/
def firstOccFrom (seen : List Dec) : List Dec → List Dec
  | [] => []
  | r :: rest =>
    if memB r seen then firstOccFrom seen rest else r :: firstOccFrom (seen ++ [r]) rest

/-- The distinct rates of a list, first occurrences first: the insertion
order of a Python `dict` keyed by the rates. -/
def firstOcc (l : List Dec) : List Dec := firstOccFrom [] l

/-- The exact (unrounded) rational sum of the groups' tax amounts. -/
def groupTaxSumQ (gs : List VatGroup) : ℚ := (gs.map (fun g => g.tax.toRat)).sum

/-- Clamping the `vat_pct` field at zero, the way the generator does before
any use of the rate. -/
def clampVal : Option PyVal → Option PyVal
  | some (.num q) => some (.num (if q.blt (dec 0 0) then dec 0 0 else q))
  | v => v

def clampItem (it : Item) : Item := { it with vat_pct := clampVal it.vat_pct }

/-- A line item whose three numeric fields are the plain numbers
`q`, `p`, `v`. -/
def numItem (q p v : Dec) : Item :=
  { quantity := some (.num q), unit_price := some (.num p), vat_pct := some (.num v) }

/-- The parsed numbers of a plain numeric item. -/
def numsOf (e : Dec × Dec × Dec) : ItemNums :=
  ⟨e.1, round2 e.2.1, round2 (e.1.mul (round2 e.2.1)),
   (if e.2.2.blt (dec 0 0) then dec 0 0 else e.2.2),
   (round2 (e.1.mul (round2 e.2.1))).mul (if e.2.2.blt (dec 0 0) then dec 0 0 else e.2.2)⟩

/-- The amount contributed by one subtotal to the spec-side sum: its parsed
`TaxAmount`, an absent or empty one contributing zero. -/
def parseSubAmount (t? : Option String) : Dec :=
  match t? with
  | none => dec 0 0
  | some v =>
    if v = "" then dec 0 0
    else (match pyFloat v with | .ok q => q | .error _ => dec 0 0)

/-- Whether an optional amount text is harmless to the extractor: absent,
empty, or parsed by `float` without raising.  Only a present, non-empty,
non-numeric text falls outside this predicate. -/
def numericOk (t? : Option String) : Bool :=
  match t? with
  | none => true
  | some t => t == "" || (match pyFloat t with | .ok _ => true | .error _ => false)

/-- `Modelled from the spec (§4.2, localised to where the code looks)`: the
document-side recomputation of the extractor's VAT total — the sum, over
every `TaxSubtotal` child of every top-level `TaxTotal` child, of its parsed
`TaxAmount`. -/
def vatSpecSum (doc : Xml) : Dec :=
  ((findAllPath doc ["cac:TaxTotal", "cac:TaxSubtotal"]).map
      (fun ts => parseSubAmount (findtext ts ["cbc:TaxAmount"]))).foldl Dec.add (dec 0 0)

/-! ## Concrete inputs used in counterexamples and witnesses -/

def supC : User :=
  { company := "Acme Supplies BV", vat_number := some "BE0123456789",
    peppol_id := some "0208:0123456789" }

def buyC : User := { company := "Bravo NV" }

/-- Two items whose per-rate taxes are 0.105 each: each subtotal rounds
half-up to 0.11 while the exact total 0.21 stays 0.21. -/
def driftItems : List Item :=
  [{ quantity := some (.num (dec 1 0)), unit_price := some (.num (dec 50 2)),
     vat_pct := some (.num (dec 21 2)) },
   { quantity := some (.num (dec 1 0)), unit_price := some (.num (dec 175 2)),
     vat_pct := some (.num (dec 6 2)) }]

/-- Items with a negative line total: exact totals are −0.01 without tax and
0.005 of tax, which round away from zero in opposite directions. -/
def mixedSignItems : List Item :=
  [{ quantity := some (.num (dec 1 0)), unit_price := some (.num (dec 50 2)),
     vat_pct := some (.num (dec 1 2)) },
   { quantity := some (.num (dec 1 0)), unit_price := some (.num (dec (-51) 2)),
     vat_pct := some (.num (dec 0 0)) }]

def wItems : List Item :=
  [{ name := some "Desk", quantity := some (.num (dec 2 0)),
     unit_price := some (.num (dec 1999 2)), vat_pct := some (.num (dec 21 2)) },
   { quantity := some (.num (dec 1 0)), unit_price := some (.num (dec 500 2)),
     vat_pct := some (.num (dec 6 2)) }]

def wNs : List ItemNums :=
  match mapItems wItems with
  | .ok ns => ns
  | .error _ => []

def wDoc : Xml :=
  buildInvoice supC buyC wItems (foldTotals wNs) wNs "INV-W" "2024-02-01" "2024-03-02"

def minimalInvoice : Xml := .elem "Invoice" [] none []

def badPayableDoc : Xml :=
  .elem "Invoice" [] none
    [.elem "cac:LegalMonetaryTotal" [] none [leaf "cbc:PayableAmount" "abc"]]

def nestedSubtotalDoc : Xml :=
  .elem "Invoice" [] none
    [.elem "cac:InvoiceLine" [] none
      [.elem "cac:TaxTotal" [] none
        [.elem "cac:TaxSubtotal" [] none [leaf "cbc:TaxAmount" "5.00"]]]]

def rawSubtotalDoc : Xml :=
  .elem "Invoice" [] none
    [.elem "cac:TaxTotal" [] none
      [.elem "cac:TaxSubtotal" [] none [leaf "cbc:TaxAmount" "oops"]]]

def w6doc : Xml :=
  .elem "Invoice" [] none
    [.elem "cac:TaxTotal" [] none
      [.elem "cac:TaxSubtotal" [] none [leaf "cbc:TaxAmount" "2.10"],
       .elem "cac:TaxSubtotal" [] none []]]

def w6sum : InvoiceSummary :=
  ⟨none, none, none, none, none, dec 0 0, (dec 0 0).add (dec 210 2)⟩

def w7es : List (Dec × Dec × Dec) :=
  [(dec 15 1, dec 999 2, dec 21 2), (dec 3 0, dec 133 1, dec 0 0)]

def w7items : List Item := w7es.map (fun e => numItem e.1 e.2.1 e.2.2)

def w7ns : List ItemNums :=
  match mapItems w7items with
  | .ok ns => ns
  | .error _ => []

def w7doc : Xml :=
  buildInvoice supC buyC w7items (foldTotals w7ns) w7ns "INV-7" "2024-02-01" "2024-03-02"

/-! ## Arithmetic lemmas about `Dec` -/

theorem pow10_pos (e : ℕ) : (0 : ℚ) < 10 ^ e := by positivity

theorem pow10_ne_zero (e : ℕ) : (10 : ℚ) ^ e ≠ 0 := ne_of_gt (pow10_pos e)

theorem Dec.toRat_def (x : Dec) : x.toRat = (x.mant : ℚ) / 10 ^ x.exp := rfl

theorem Dec.toRat_add (a b : Dec) : (a.add b).toRat = a.toRat + b.toRat := by
  unfold Dec.add Dec.toRat
  have ha : a.exp ≤ max a.exp b.exp := le_max_left _ _
  have hb : b.exp ≤ max a.exp b.exp := le_max_right _ _
  have h1 : (10 : ℚ) ^ (max a.exp b.exp - a.exp) * 10 ^ a.exp = 10 ^ max a.exp b.exp := by
    rw [← pow_add, Nat.sub_add_cancel ha]
  have h2 : (10 : ℚ) ^ (max a.exp b.exp - b.exp) * 10 ^ b.exp = 10 ^ max a.exp b.exp := by
    rw [← pow_add, Nat.sub_add_cancel hb]
  rw [div_add_div _ _ (pow10_ne_zero a.exp) (pow10_ne_zero b.exp),
    div_eq_div_iff (pow10_ne_zero _) (by positivity)]
  push_cast
  linear_combination ((a.mant : ℚ) * 10 ^ b.exp) * h1 + ((b.mant : ℚ) * 10 ^ a.exp) * h2

theorem Dec.toRat_mul (a b : Dec) : (a.mul b).toRat = a.toRat * b.toRat := by
  unfold Dec.mul Dec.toRat
  rw [pow_add]
  push_cast
  field_simp

theorem Dec.toRat_zero2 : (dec 0 2).toRat = 0 := by
  simp [dec, Dec.toRat]

theorem Dec.toRat_nonneg_iff (x : Dec) : 0 ≤ x.toRat ↔ 0 ≤ x.mant := by
  rw [Dec.toRat_def, le_div_iff₀ (pow10_pos x.exp)]
  simp [Int.cast_nonneg]

theorem Dec.toRat_neg_iff (x : Dec) : x.toRat < 0 ↔ x.mant < 0 := by
  rw [Dec.toRat_def, div_neg_iff]
  constructor
  · rintro (⟨_, h⟩ | ⟨h, _⟩)
    · exact absurd (pow10_pos x.exp) (not_lt.mpr (le_of_lt h))
    · exact_mod_cast h
  · intro h
    exact Or.inr ⟨by exact_mod_cast h, pow10_pos x.exp⟩

/-- The half-away-from-zero rounding to cents, on rational values: the spec's
`round2` scaled by 100. -/
def roundQ (q : ℚ) : ℤ := if 0 ≤ q then ⌊q * 100 + 1 / 2⌋ else -⌊-q * 100 + 1 / 2⌋

theorem roundQ_intCast (n : ℤ) : roundQ ((n : ℚ) / 100) = n := by
  unfold roundQ
  have h2 : ⌊(1 : ℚ) / 2⌋ = 0 := by norm_num
  rcases le_or_lt 0 (((n : ℚ)) / 100) with h | h
  · rw [if_pos h]
    have he : ((n : ℚ) / 100) * 100 + 1 / 2 = (n : ℚ) + 1 / 2 := by field_simp
    rw [he, Int.floor_int_add, h2, add_zero]
  · rw [if_neg (not_le.mpr h)]
    have he : -((n : ℚ) / 100) * 100 + 1 / 2 = ((-n : ℤ) : ℚ) + 1 / 2 := by
      push_cast
      field_simp
      ring
    rw [he, Int.floor_int_add, h2, add_zero, neg_neg]

theorem roundQ_cents_add (n : ℤ) (b : ℚ) (hn : 0 ≤ n) (hb : 0 ≤ b) :
    roundQ ((n : ℚ) / 100 + b) = n + roundQ b := by
  unfold roundQ
  have h1 : (0 : ℚ) ≤ (n : ℚ) / 100 + b :=
    add_nonneg (div_nonneg (by exact_mod_cast hn) (by norm_num)) hb
  rw [if_pos h1, if_pos hb]
  have he : ((n : ℚ) / 100 + b) * 100 + 1 / 2 = (n : ℚ) + (b * 100 + 1 / 2) := by
    field_simp
    ring
  rw [he, Int.floor_int_add]

theorem floor_natCast_div (p r : ℕ) (hr : 0 < r) :
    ⌊(p : ℚ) / (r : ℚ)⌋ = (p / r : ℕ) := by
  have h0 : (0 : ℚ) < (r : ℚ) := by exact_mod_cast hr
  have h1 : p < p / r * r + r := Nat.lt_div_mul_add hr
  rw [Int.floor_eq_iff]
  constructor
  · rw [le_div_iff₀ h0]
    exact_mod_cast Nat.div_mul_le_self p r
  · rw [div_lt_iff₀ h0]
    generalize hq : p / r = q at h1 ⊢
    have h2 : (p : ℚ) < ((q * r + r : ℕ) : ℚ) := by exact_mod_cast h1
    calc (p : ℚ) < ((q * r + r : ℕ) : ℚ) := h2
      _ = (((q : ℕ) : ℤ) + 1) * (r : ℚ) := by push_cast; ring

/-- The `Dec`-level rounding agrees with the rational rounding: `cents`
computes the half-away-from-zero rounding of the value times 100. -/
theorem Dec.cents_eq_roundQ (x : Dec) : x.cents = roundQ x.toRat := by
  unfold Dec.cents
  by_cases h : x.exp ≤ 2
  · rw [if_pos h]
    have : x.toRat = ((x.mant * 10 ^ (2 - x.exp) : ℤ) : ℚ) / 100 := by
      rw [Dec.toRat_def]
      push_cast
      rw [div_eq_div_iff (pow10_ne_zero x.exp) (by norm_num)]
      rw [mul_assoc, ← pow_add, Nat.sub_add_cancel h]
      norm_num
    rw [this, roundQ_intCast]
  · rw [if_neg h]
    push_neg at h
    have hsplit : (10 : ℚ) ^ x.exp = 10 ^ (x.exp - 2) * 100 := by
      rw [show (100 : ℚ) = 10 ^ (2 : ℕ) by norm_num, ← pow_add,
        Nat.sub_add_cancel (le_of_lt h)]
    have hdpos : 0 < 10 ^ (x.exp - 2) := pow_pos (by norm_num) _
    have hdQ : ((10 ^ (x.exp - 2) : ℕ) : ℚ) = (10 : ℚ) ^ (x.exp - 2) := by push_cast; ring
    have hkey : ∀ a : ℕ,
        ⌊(a : ℚ) / (10 : ℚ) ^ (x.exp - 2) + 1 / 2⌋
          = ((2 * a + 10 ^ (x.exp - 2)) / (2 * 10 ^ (x.exp - 2)) : ℕ) := by
      intro a
      have h2d : (0 : ℕ) < 2 * 10 ^ (x.exp - 2) := by omega
      rw [← floor_natCast_div (2 * a + 10 ^ (x.exp - 2)) (2 * 10 ^ (x.exp - 2)) h2d]
      congr 1
      have hne : ((2 * 10 ^ (x.exp - 2) : ℕ) : ℚ) ≠ 0 := by
        exact_mod_cast Nat.pos_iff_ne_zero.mp h2d
      push_cast
      push_cast at hne
      field_simp
      ring
    rcases lt_or_le x.mant 0 with hm | hm
    · rw [if_pos hm]
      have hvneg : x.toRat < 0 := (Dec.toRat_neg_iff x).mpr hm
      rw [roundQ, if_neg (not_le.mpr hvneg)]
      have habs : (-x.toRat) * 100 = (x.mant.natAbs : ℚ) / (10 : ℚ) ^ (x.exp - 2) := by
        rw [Dec.toRat_def, hsplit]
        have hc : ((x.mant.natAbs : ℚ)) = -(x.mant : ℚ) := by
          rw [Int.cast_natAbs, abs_of_neg hm]
          push_cast
          ring
        rw [hc]
        field_simp
        ring
      rw [habs, hkey x.mant.natAbs]
    · rw [if_neg (not_lt.mpr hm)]
      have hvpos : 0 ≤ x.toRat := (Dec.toRat_nonneg_iff x).mpr hm
      rw [roundQ, if_pos hvpos]
      have habs : x.toRat * 100 = (x.mant.natAbs : ℚ) / (10 : ℚ) ^ (x.exp - 2) := by
        rw [Dec.toRat_def, hsplit]
        have hc : ((x.mant.natAbs : ℚ)) = (x.mant : ℚ) := by
          rw [Int.cast_natAbs, abs_of_nonneg hm]
        rw [hc]
        field_simp
        ring
      rw [habs, hkey x.mant.natAbs]

/-! ## Digit-string lemmas -/

theorem digitChar_isDigit {n : ℕ} (h : n < 10) : (digitChar n).isDigit = true := by
  interval_cases n <;> decide

theorem digitVal_digitChar {n : ℕ} (h : n < 10) : digitVal (digitChar n) = n := by
  interval_cases n <;> decide

theorem isDigit_ne_dot {c : Char} (h : c.isDigit = true) : c ≠ '.' := by
  intro he
  subst he
  simp at h

theorem isDigit_ne_minus {c : Char} (h : c.isDigit = true) : c ≠ '-' := by
  intro he
  subst he
  simp at h

theorem isDigit_ne_plus {c : Char} (h : c.isDigit = true) : c ≠ '+' := by
  intro he
  subst he
  simp at h

theorem digitsToNat_append_one (xs : List Char) (c : Char) :
    digitsToNat (xs ++ [c]) = digitsToNat xs * 10 + digitVal c := by
  unfold digitsToNat
  rw [List.foldl_append]
  rfl

theorem natDigitsGo_spec :
    ∀ fuel n, n < fuel →
      natDigitsGo fuel n ≠ [] ∧ (∀ c ∈ natDigitsGo fuel n, c.isDigit = true) ∧
        digitsToNat (natDigitsGo fuel n) = n := by
  intro fuel
  induction fuel with
  | zero => intro n h; omega
  | succ f ih =>
    intro n h
    by_cases h10 : n < 10
    · refine ⟨by simp [natDigitsGo, h10], ?_, ?_⟩
      · intro c hc
        simp [natDigitsGo, h10] at hc
        subst hc
        exact digitChar_isDigit h10
      · simp [natDigitsGo, h10, digitsToNat, digitVal_digitChar h10]
    · have hrec : n / 10 < f := by omega
      obtain ⟨hne, hdig, hval⟩ := ih (n / 10) hrec
      have hshape : natDigitsGo (f + 1) n
          = natDigitsGo f (n / 10) ++ [digitChar (n % 10)] := by
        simp [natDigitsGo, h10]
      refine ⟨by simp [hshape], ?_, ?_⟩
      · intro c hc
        rw [hshape] at hc
        rcases List.mem_append.mp hc with hc | hc
        · exact hdig c hc
        · simp at hc
          subst hc
          exact digitChar_isDigit (Nat.mod_lt n (by norm_num))
      · rw [hshape, digitsToNat_append_one, hval, digitVal_digitChar (Nat.mod_lt n (by norm_num))]
        omega

theorem natDigits_ne_nil (n : ℕ) : natDigits n ≠ [] :=
  (natDigitsGo_spec (n + 1) n (Nat.lt_succ_self n)).1

theorem natDigits_digits (n : ℕ) : ∀ c ∈ natDigits n, c.isDigit = true :=
  (natDigitsGo_spec (n + 1) n (Nat.lt_succ_self n)).2.1

theorem digitsToNat_natDigits (n : ℕ) : digitsToNat (natDigits n) = n :=
  (natDigitsGo_spec (n + 1) n (Nat.lt_succ_self n)).2.2

theorem natDigits_small {n : ℕ} (h : n < 10) : natDigits n = [digitChar n] := by
  simp [natDigits, natDigitsGo, h]

theorem natDigits_len2 {n : ℕ} (h1 : 10 ≤ n) (h2 : n < 100) :
    natDigits n = [digitChar (n / 10), digitChar (n % 10)] := by
  have hd : n / 10 < 10 := by omega
  have hgo : natDigitsGo (n + 1) n = natDigitsGo n (n / 10) ++ [digitChar (n % 10)] := by
    rw [natDigitsGo, if_neg (by omega : ¬ n < 10)]
  obtain ⟨m, rfl⟩ : ∃ m, n = m + 1 := ⟨n - 1, by omega⟩
  have hsub : natDigitsGo (m + 1) ((m + 1) / 10) = [digitChar ((m + 1) / 10)] := by
    rw [natDigitsGo, if_pos hd]
  rw [natDigits, hgo, hsub]
  rfl

theorem twoDigits_spec {n : ℕ} (h : n < 100) :
    (twoDigits n).length = 2 ∧ (∀ c ∈ twoDigits n, c.isDigit = true) ∧
      digitsToNat (twoDigits n) = n := by
  by_cases h10 : n < 10
  · refine ⟨by simp [twoDigits, h10], ?_, ?_⟩
    · intro c hc
      simp [twoDigits, h10] at hc
      rcases hc with hc | hc
      · subst hc; decide
      · subst hc; exact digitChar_isDigit h10
    · have he : (['0', digitChar n] : List Char) = ['0'] ++ [digitChar n] := rfl
      rw [twoDigits, if_pos h10, he, digitsToNat_append_one, digitVal_digitChar h10]
      have h0 : digitsToNat ['0'] = 0 := by decide
      rw [h0]
      omega
  · rw [twoDigits, if_neg h10, natDigits_len2 (by omega) h]
    have hd : n / 10 < 10 := by omega
    have hm : n % 10 < 10 := Nat.mod_lt n (by norm_num)
    refine ⟨rfl, ?_, ?_⟩
    · intro c hc
      simp at hc
      rcases hc with hc | hc
      · subst hc; exact digitChar_isDigit hd
      · subst hc; exact digitChar_isDigit hm
    · simp [digitsToNat, digitVal_digitChar hd, digitVal_digitChar hm]
      omega

/-! ## `splitDot` lemmas -/

theorem splitDot_ne_nil (cs : List Char) : splitDot cs ≠ [] := by
  induction cs with
  | nil => simp [splitDot]
  | cons c rest ih =>
    rw [splitDot]
    by_cases h : c = '.'
    · simp [h]
    · rw [if_neg h]
      rcases hr : splitDot rest with _ | ⟨hd, tl⟩
      · exact absurd hr ih
      · simp

theorem splitDot_no_dot {cs : List Char} (h : ∀ c ∈ cs, c ≠ '.') : splitDot cs = [cs] := by
  induction cs with
  | nil => rfl
  | cons c rest ih =>
    rw [splitDot, if_neg (h c (by simp))]
    rw [ih (fun d hd => h d (by simp [hd]))]

theorem splitDot_append_dot (xs ys : List Char) (h : ∀ c ∈ xs, c ≠ '.') :
    splitDot (xs ++ '.' :: ys) = xs :: splitDot ys := by
  induction xs with
  | nil => simp [splitDot]
  | cons c rest ih =>
    rw [List.cons_append, splitDot, if_neg (h c (by simp))]
    rw [ih (fun d hd => h d (by simp [hd]))]

/-! ## The `fmt_amount` / `pyFloat` round trip -/

theorem fmt_data (x : Dec) :
    (fmt_amount x).data
      = (if x.mant < 0 && x.cents == 0 then ['-'] else []) ++ centsChars x.cents := rfl

theorem pyFloatParts_two (neg : Bool) (s : String) (ip fp : List Char)
    (hip : ∀ c ∈ ip, c.isDigit = true) (hfp : ∀ c ∈ fp, c.isDigit = true) (hne : ip ≠ []) :
    pyFloatParts neg s [ip, fp]
      = .ok ⟨(if neg then -1 else 1)
              * ((digitsToNat ip * 10 ^ fp.length + digitsToNat fp : ℕ) : ℤ), fp.length⟩ := by
  rw [pyFloatParts]
  rw [if_pos]
  exact ⟨Or.inl hne, by rw [List.all_eq_true]; exact hip, by rw [List.all_eq_true]; exact hfp⟩

theorem splitDot_centsBody (a : ℕ) :
    splitDot (centsBody a) = [natDigits (a / 100), twoDigits (a % 100)] := by
  rw [centsBody,
    splitDot_append_dot _ _ (fun ch hch => isDigit_ne_dot (natDigits_digits _ ch hch)),
    splitDot_no_dot (fun ch hch =>
      isDigit_ne_dot ((twoDigits_spec (Nat.mod_lt a (by norm_num))).2.1 ch hch))]

theorem centsBody_value (a : ℕ) :
    (digitsToNat (natDigits (a / 100)) * 10 ^ (twoDigits (a % 100)).length
      + digitsToNat (twoDigits (a % 100)) : ℕ) = a := by
  obtain ⟨hlen, _, hval⟩ := twoDigits_spec (Nat.mod_lt a (by norm_num) : a % 100 < 100)
  rw [digitsToNat_natDigits, hlen, hval]
  have h2 : (10 : ℕ) ^ 2 = 100 := by norm_num
  rw [h2]
  omega

theorem pyFloat_of_data_neg (s : String) (a : ℕ) (hdata : s.data = '-' :: centsBody a) :
    pyFloat s = .ok ⟨-(a : ℤ), 2⟩ := by
  rw [pyFloat, hdata]
  rw [show (('-' :: centsBody a).head? == some '-') = true from rfl]
  rw [if_pos (show ('-' :: centsBody a).head? = some '-' ∨ ('-' :: centsBody a).head? = some '+'
    from Or.inl rfl)]
  rw [show ('-' :: centsBody a).tail = centsBody a from rfl, splitDot_centsBody]
  rw [pyFloatParts_two _ _ _ _ (natDigits_digits _)
    ((twoDigits_spec (Nat.mod_lt a (by norm_num))).2.1) (natDigits_ne_nil _)]
  rw [centsBody_value]
  have hlen : (twoDigits (a % 100)).length = 2 :=
    (twoDigits_spec (Nat.mod_lt a (by norm_num))).1
  rw [hlen]
  congr 1
  simp

theorem pyFloat_of_data_pos (s : String) (a : ℕ) (hdata : s.data = centsBody a) :
    pyFloat s = .ok ⟨(a : ℤ), 2⟩ := by
  obtain ⟨d, ds, hcons⟩ := List.exists_cons_of_ne_nil (natDigits_ne_nil (a / 100))
  have hd : d.isDigit = true := natDigits_digits (a / 100) d (by rw [hcons]; simp)
  have hbody : centsBody a = d :: (ds ++ '.' :: twoDigits (a % 100)) := by
    rw [centsBody, hcons]
    rfl
  rw [pyFloat, hdata, hbody]
  rw [show (d :: (ds ++ '.' :: twoDigits (a % 100))).head? = some d from rfl]
  have hne1 : ¬(some d = some '-' ∨ some d = some '+') := by
    rintro (he | he) <;> rw [Option.some.injEq] at he
    · exact isDigit_ne_minus hd he
    · exact isDigit_ne_plus hd he
  rw [if_neg hne1]
  have hbeq : (some d == some '-') = false := by
    rcases hbe : (some d == some '-') with _ | _
    · rfl
    · exact absurd (Option.some.injEq d '-' ▸ eq_of_beq hbe) (isDigit_ne_minus hd)
  rw [hbeq, ← hbody, splitDot_centsBody]
  rw [pyFloatParts_two _ _ _ _ (natDigits_digits _)
    ((twoDigits_spec (Nat.mod_lt a (by norm_num))).2.1) (natDigits_ne_nil _)]
  rw [centsBody_value]
  have hlen : (twoDigits (a % 100)).length = 2 :=
    (twoDigits_spec (Nat.mod_lt a (by norm_num))).1
  rw [hlen]
  congr 1
  simp

/-- Parsing a formatted amount back recovers exactly the rounded value: the
scale-2 decimal of the same cents. -/
theorem pyFloat_fmt (x : Dec) : pyFloat (fmt_amount x) = .ok (round2 x) := by
  have hdata := fmt_data x
  by_cases hzero : x.mant < 0 && x.cents == 0
  · have hc0 : x.cents = 0 := by
      have hand := (Bool.and_eq_true _ _).mp hzero
      exact beq_iff_eq.mp hand.2
    rw [if_pos hzero, centsChars, hc0, if_neg (show ¬ (0 : ℤ) < 0 from by omega)] at hdata
    have hD : (fmt_amount x).data = '-' :: centsBody (0 : ℤ).natAbs := by
      rw [hdata]
      rfl
    rw [pyFloat_of_data_neg _ _ hD, round2, hc0]
    have he : (-(((0 : ℤ).natAbs : ℤ))) = (0 : ℤ) := by omega
    rw [he]
  · rw [if_neg hzero, List.nil_append] at hdata
    by_cases hneg : x.cents < 0
    · rw [centsChars, if_pos hneg] at hdata
      have hD : (fmt_amount x).data = '-' :: centsBody x.cents.natAbs := by
        rw [hdata]
        rfl
      rw [pyFloat_of_data_neg _ _ hD, round2]
      have he : (-((x.cents.natAbs : ℤ))) = x.cents := by omega
      rw [he]
    · rw [centsChars, if_neg hneg, List.nil_append] at hdata
      have hD : (fmt_amount x).data = centsBody x.cents.natAbs := by
        rw [hdata]
        rfl
      rw [pyFloat_of_data_pos _ _ hD, round2]
      have he : ((x.cents.natAbs : ℤ)) = x.cents := by omega
      rw [he]

theorem fmt_amount_ne_empty (x : Dec) : fmt_amount x ≠ "" := by
  intro h
  have hdata : (fmt_amount x).data = [] := by rw [h]
  rw [fmt_data] at hdata
  rcases List.append_eq_nil.mp hdata with ⟨_, h2⟩
  rw [centsChars] at h2
  rcases List.append_eq_nil.mp h2 with ⟨_, h3⟩
  simp at h3

/-! ## Structure of the generated document -/

theorem invoiceLines_tag (items : List Item) (ns : List ItemNums) (i : ℕ) :
    ∀ x ∈ invoiceLines items ns i, x.tag = "cac:InvoiceLine" := by
  induction items generalizing ns i with
  | nil => intro x hx; simp [invoiceLines] at hx
  | cons it rest ih =>
    intro x hx
    cases ns with
    | nil => simp [invoiceLines] at hx
    | cons n nrest =>
      rw [invoiceLines] at hx
      rcases List.mem_cons.mp hx with hx | hx
      · subst hx; rfl
      · exact ih nrest (i + 1) x hx

theorem invoiceLines_filter_ne (items : List Item) (ns : List ItemNums) (i : ℕ)
    (t : String) (h : t ≠ "cac:InvoiceLine") :
    (invoiceLines items ns i).filter (fun c => c.tag = t) = [] := by
  rw [List.filter_eq_nil_iff]
  intro a ha
  simp [invoiceLines_tag items ns i a ha]
  exact fun he => h he.symm

theorem invoiceLines_filter_self (items : List Item) (ns : List ItemNums) (i : ℕ) :
    (invoiceLines items ns i).filter (fun c => c.tag = "cac:InvoiceLine")
      = invoiceLines items ns i := by
  rw [List.filter_eq_self]
  intro a ha
  simp [invoiceLines_tag items ns i a ha]

theorem children_buildInvoice (sup buy : User) (items : List Item) (t : Totals)
    (ns : List ItemNums) (iid idate ddate : String) (tag : String) :
    childrenNamed (buildInvoice sup buy items t ns iid idate ddate) tag
      = (headerElems sup buy items iid idate).filter (fun c => c.tag = tag)
        ++ ([taxTotalXml t,
             .elem "cac:PaymentTerms" [] none [leaf "cbc:Note" ("Payment due by " ++ ddate)],
             legalMonetaryXml t] : List Xml).filter (fun c => c.tag = tag)
        ++ (invoiceLines items ns 1).filter (fun c => c.tag = tag)
        ++ ([paymentMeansXml ddate] : List Xml).filter (fun c => c.tag = tag) := by
  rw [buildInvoice, childrenNamed]
  rw [show (Xml.elem "Invoice" [] none
      (headerElems sup buy items iid idate
        ++ [taxTotalXml t,
            .elem "cac:PaymentTerms" [] none [leaf "cbc:Note" ("Payment due by " ++ ddate)],
            legalMonetaryXml t]
        ++ invoiceLines items ns 1
        ++ [paymentMeansXml ddate])).children
    = headerElems sup buy items iid idate
        ++ [taxTotalXml t,
            .elem "cac:PaymentTerms" [] none [leaf "cbc:Note" ("Payment due by " ++ ddate)],
            legalMonetaryXml t]
        ++ invoiceLines items ns 1
        ++ [paymentMeansXml ddate] from rfl]
  rw [List.filter_append, List.filter_append, List.filter_append]

theorem children_taxTotal (sup buy : User) (items : List Item) (t : Totals)
    (ns : List ItemNums) (iid idate ddate : String) :
    childrenNamed (buildInvoice sup buy items t ns iid idate ddate) "cac:TaxTotal"
      = [taxTotalXml t] := by
  rw [children_buildInvoice, invoiceLines_filter_ne _ _ _ _ (by simp)]
  simp [headerElems, leaf, supplierPartyXml, customerPartyXml, taxTotalXml, legalMonetaryXml,
    paymentMeansXml, Xml.tag]

theorem children_monetary (sup buy : User) (items : List Item) (t : Totals)
    (ns : List ItemNums) (iid idate ddate : String) :
    childrenNamed (buildInvoice sup buy items t ns iid idate ddate) "cac:LegalMonetaryTotal"
      = [legalMonetaryXml t] := by
  rw [children_buildInvoice, invoiceLines_filter_ne _ _ _ _ (by simp)]
  simp [headerElems, leaf, supplierPartyXml, customerPartyXml, taxTotalXml, legalMonetaryXml,
    paymentMeansXml, Xml.tag]

theorem children_buyerRef (sup buy : User) (items : List Item) (t : Totals)
    (ns : List ItemNums) (iid idate ddate : String) :
    childrenNamed (buildInvoice sup buy items t ns iid idate ddate) "cbc:BuyerReference"
      = [leaf "cbc:BuyerReference" buy.company] := by
  rw [children_buildInvoice, invoiceLines_filter_ne _ _ _ _ (by simp)]
  simp [headerElems, leaf, supplierPartyXml, customerPartyXml, taxTotalXml, legalMonetaryXml,
    paymentMeansXml, Xml.tag]

theorem children_supplierParty (sup buy : User) (items : List Item) (t : Totals)
    (ns : List ItemNums) (iid idate ddate : String) :
    childrenNamed (buildInvoice sup buy items t ns iid idate ddate) "cac:AccountingSupplierParty"
      = [supplierPartyXml sup] := by
  rw [children_buildInvoice, invoiceLines_filter_ne _ _ _ _ (by simp)]
  simp [headerElems, leaf, supplierPartyXml, customerPartyXml, taxTotalXml, legalMonetaryXml,
    paymentMeansXml, Xml.tag]

theorem children_customerParty (sup buy : User) (items : List Item) (t : Totals)
    (ns : List ItemNums) (iid idate ddate : String) :
    childrenNamed (buildInvoice sup buy items t ns iid idate ddate) "cac:AccountingCustomerParty"
      = [customerPartyXml buy] := by
  rw [children_buildInvoice, invoiceLines_filter_ne _ _ _ _ (by simp)]
  simp [headerElems, leaf, supplierPartyXml, customerPartyXml, taxTotalXml, legalMonetaryXml,
    paymentMeansXml, Xml.tag]

theorem children_invoiceLine (sup buy : User) (items : List Item) (t : Totals)
    (ns : List ItemNums) (iid idate ddate : String) :
    childrenNamed (buildInvoice sup buy items t ns iid idate ddate) "cac:InvoiceLine"
      = invoiceLines items ns 1 := by
  rw [children_buildInvoice, invoiceLines_filter_self]
  simp [headerElems, leaf, supplierPartyXml, customerPartyXml, taxTotalXml, legalMonetaryXml,
    paymentMeansXml, Xml.tag]

theorem children_id (sup buy : User) (items : List Item) (t : Totals)
    (ns : List ItemNums) (iid idate ddate : String) :
    childrenNamed (buildInvoice sup buy items t ns iid idate ddate) "cbc:ID"
      = [leaf "cbc:ID" iid] := by
  rw [children_buildInvoice, invoiceLines_filter_ne _ _ _ _ (by simp)]
  simp [headerElems, leaf, supplierPartyXml, customerPartyXml, taxTotalXml, legalMonetaryXml,
    paymentMeansXml, Xml.tag]

theorem children_issueDate (sup buy : User) (items : List Item) (t : Totals)
    (ns : List ItemNums) (iid idate ddate : String) :
    childrenNamed (buildInvoice sup buy items t ns iid idate ddate) "cbc:IssueDate"
      = [leaf "cbc:IssueDate" idate] := by
  rw [children_buildInvoice, invoiceLines_filter_ne _ _ _ _ (by simp)]
  simp [headerElems, leaf, supplierPartyXml, customerPartyXml, taxTotalXml, legalMonetaryXml,
    paymentMeansXml, Xml.tag]

theorem children_currency (sup buy : User) (items : List Item) (t : Totals)
    (ns : List ItemNums) (iid idate ddate : String) :
    childrenNamed (buildInvoice sup buy items t ns iid idate ddate) "cbc:DocumentCurrencyCode"
      = [leaf "cbc:DocumentCurrencyCode" "EUR"] := by
  rw [children_buildInvoice, invoiceLines_filter_ne _ _ _ _ (by simp)]
  simp [headerElems, leaf, supplierPartyXml, customerPartyXml, taxTotalXml, legalMonetaryXml,
    paymentMeansXml, Xml.tag]

/-! ## Structure of the totals computation -/

theorem generate_ok {items : List Item} {ns : List ItemNums} (sup buy : User)
    (iid idate ddate : String) (h : mapItems items = .ok ns) :
    generate_invoice_xml sup buy items iid idate ddate
      = .ok (buildInvoice sup buy items (foldTotals ns) ns iid idate ddate) := by
  rw [generate_invoice_xml, computeTotals, h]
  rfl

theorem generate_error {items : List Item} {e : String} (sup buy : User)
    (iid idate ddate : String) (h : mapItems items = .error e) :
    generate_invoice_xml sup buy items iid idate ddate = .error e := by
  rw [generate_invoice_xml, computeTotals, h]
  rfl

theorem generate_ok_elim {sup buy : User} {items : List Item} {iid idate ddate : String}
    {doc : Xml} (h : generate_invoice_xml sup buy items iid idate ddate = .ok doc) :
    ∃ ns, mapItems items = .ok ns
      ∧ doc = buildInvoice sup buy items (foldTotals ns) ns iid idate ddate := by
  cases hm : mapItems items with
  | error e =>
    rw [generate_error sup buy iid idate ddate hm] at h
    exact absurd h (by simp)
  | ok ns =>
    rw [generate_ok sup buy iid idate ddate hm] at h
    exact ⟨ns, rfl, (Except.ok.injEq _ _).mp h |>.symm⟩

theorem itemNums_error_of_raw {it : Item} (h : it.hasRawNumeric = true) :
    ∃ e, itemNums it = .error e := by
  rw [Item.hasRawNumeric] at h
  rcases hq : it.quantity with _ | v
  · rcases hp : it.unit_price with _ | v
    · rcases hv : it.vat_pct with _ | v
      · rw [hq, hp, hv] at h; simp at h
      · cases v with
        | num d => rw [hq, hp, hv] at h; simp at h
        | raw s => exact ⟨_, by rw [itemNums, hq, hp, hv]; rfl⟩
    · cases v with
      | num d =>
        rcases hv : it.vat_pct with _ | v
        · rw [hq, hp, hv] at h; simp at h
        · cases v with
          | num d2 => rw [hq, hp, hv] at h; simp at h
          | raw s => exact ⟨_, by rw [itemNums, hq, hp, hv]; rfl⟩
      | raw s => exact ⟨_, by rw [itemNums, hq, hp]; rfl⟩
  · cases v with
    | num d =>
      rcases hp : it.unit_price with _ | v
      · rcases hv : it.vat_pct with _ | v
        · rw [hq, hp, hv] at h; simp at h
        · cases v with
          | num d2 => rw [hq, hp, hv] at h; simp at h
          | raw s => exact ⟨_, by rw [itemNums, hq, hp, hv]; rfl⟩
      · cases v with
        | num d2 =>
          rcases hv : it.vat_pct with _ | v
          · rw [hq, hp, hv] at h; simp at h
          · cases v with
            | num d3 => rw [hq, hp, hv] at h; simp at h
            | raw s => exact ⟨_, by rw [itemNums, hq, hp, hv]; rfl⟩
        | raw s => exact ⟨_, by rw [itemNums, hq, hp]; rfl⟩
    | raw s => exact ⟨_, by rw [itemNums, hq]; rfl⟩

theorem mapItems_error_of_raw {items : List Item}
    (h : items.any Item.hasRawNumeric = true) : ∃ e, mapItems items = .error e := by
  induction items with
  | nil => simp at h
  | cons it rest ih =>
    rw [List.any_cons] at h
    cases hn : itemNums it with
    | error e => exact ⟨e, by rw [mapItems, hn]; rfl⟩
    | ok n =>
      have hrest : rest.any Item.hasRawNumeric = true := by
        rcases Bool.or_eq_true _ _ |>.mp h with h1 | h1
        · obtain ⟨e, he⟩ := itemNums_error_of_raw h1
          rw [hn] at he
          exact absurd he (by simp)
        · exact h1
      obtain ⟨e, he⟩ := ih hrest
      exact ⟨e, by rw [mapItems, hn, he]; rfl⟩

/-- The per-item facts that hold of every successfully parsed item. -/
theorem itemNums_ok_shape {it : Item} {n : ItemNums} (h : itemNums it = .ok n) :
    n.line_total = round2 (n.quantity.mul n.unit_price)
      ∧ n.vat_amount = n.line_total.mul n.vat_pct ∧ n.line_total.exp = 2 := by
  rw [itemNums] at h
  cases hq : d0 (it.quantity.getD (.num (dec 0 0))) with
  | error e =>
    rw [hq] at h
    exact absurd (show (Except.error e : Except String ItemNums) = .ok n from h) (by simp)
  | ok q =>
    rw [hq] at h
    cases hp : d2 (it.unit_price.getD (.num (dec 0 0))) with
    | error e =>
      rw [hp] at h
      exact absurd (show (Except.error e : Except String ItemNums) = .ok n from h) (by simp)
    | ok up =>
      rw [hp] at h
      cases hv : d0 (it.vat_pct.getD (.num (dec 0 0))) with
      | error e =>
        rw [hv] at h
        exact absurd (show (Except.error e : Except String ItemNums) = .ok n from h) (by simp)
      | ok v =>
        rw [hv] at h
        have h2 : Except.ok (ε := String)
            (⟨q, up, round2 (q.mul up), (if (v.blt (dec 0 0)) then dec 0 0 else v),
              (round2 (q.mul up)).mul (if (v.blt (dec 0 0)) then dec 0 0 else v)⟩ : ItemNums)
            = .ok n := h
        have h3 := (Except.ok.injEq _ _).mp h2
        subst h3
        exact ⟨rfl, rfl, rfl⟩

theorem mapItems_ok_line_exp {items : List Item} {ns : List ItemNums}
    (h : mapItems items = .ok ns) : ∀ n ∈ ns, n.line_total.exp = 2 := by
  induction items generalizing ns with
  | nil =>
    rw [mapItems] at h
    cases h
    intro n hn
    simp at hn
  | cons it rest ih =>
    rw [mapItems] at h
    cases hn : itemNums it with
    | error e =>
      rw [hn] at h
      exact absurd (show (Except.error e : Except String (List ItemNums)) = .ok ns from h)
        (by simp)
    | ok n0 =>
      rw [hn] at h
      cases hrest : mapItems rest with
      | error e =>
        rw [hrest] at h
        exact absurd (show (Except.error e : Except String (List ItemNums)) = .ok ns from h)
          (by simp)
      | ok ns0 =>
        rw [hrest] at h
        have h2 : Except.ok (ε := String) (n0 :: ns0) = .ok ns := h
        have h3 := (Except.ok.injEq _ _).mp h2
        subst h3
        intro n hmem
        rcases List.mem_cons.mp hmem with hmem | hmem
        · subst hmem
          exact (itemNums_ok_shape hn).2.2
        · exact ih hrest n hmem

/-! ## VAT-group keys: insertion order and sums -/

theorem addGroup_keys (gs : List VatGroup) (r tb tx : Dec) :
    keysOf (addGroup gs r tb tx)
      = if memB r (keysOf gs) then keysOf gs else keysOf gs ++ [r] := by
  induction gs with
  | nil => simp [addGroup, keysOf, memB]
  | cons g rest ih =>
    rw [addGroup]
    by_cases hk : g.key.beq r
    · rw [if_pos hk]
      have hm : memB r (keysOf (g :: rest)) = true := by
        simp [memB, keysOf]
        exact Or.inl hk
      rw [hm, if_pos rfl]
      simp [keysOf]
    · rw [if_neg hk]
      have hm : memB r (keysOf (g :: rest)) = memB r (keysOf rest) := by
        simp [memB, keysOf, List.any_cons, hk]
      rw [show keysOf (g :: addGroup rest r tb tx) = g.key :: keysOf (addGroup rest r tb tx)
          from rfl, ih, hm]
      by_cases hrest : memB r (keysOf rest)
      · rw [if_pos hrest, if_pos hrest]
        rfl
      · rw [if_neg hrest, if_neg hrest]
        rfl

theorem foldl_keys (ns : List ItemNums) :
    ∀ acc : Totals, keysOf ((ns.foldl stepTotals acc).groups)
      = keysOf acc.groups
          ++ firstOccFrom (keysOf acc.groups) (ns.map ItemNums.vat_pct) := by
  induction ns with
  | nil => intro acc; simp [firstOccFrom]
  | cons n rest ih =>
    intro acc
    rw [List.foldl_cons, List.map_cons, firstOccFrom, ih]
    have hgk : keysOf ((stepTotals acc n).groups)
        = if memB n.vat_pct (keysOf acc.groups) then keysOf acc.groups
          else keysOf acc.groups ++ [n.vat_pct] := by
      rw [stepTotals]
      exact addGroup_keys acc.groups n.vat_pct n.line_total n.vat_amount
    by_cases hm : memB n.vat_pct (keysOf acc.groups)
    · rw [if_pos hm] at hgk
      rw [hgk, if_pos hm]
    · rw [if_neg hm] at hgk
      rw [hgk, if_neg hm, List.append_assoc]
      rfl

theorem foldTotals_keys (ns : List ItemNums) :
    keysOf ((foldTotals ns).groups) = firstOcc (ns.map ItemNums.vat_pct) := by
  rw [foldTotals, foldl_keys]
  simp [keysOf, firstOcc]

theorem addGroup_taxSum (gs : List VatGroup) (r tb tx : Dec) :
    groupTaxSumQ (addGroup gs r tb tx) = groupTaxSumQ gs + tx.toRat := by
  induction gs with
  | nil =>
    simp [addGroup, groupTaxSumQ, Dec.toRat_add, Dec.toRat_zero2]
  | cons g rest ih =>
    rw [addGroup]
    by_cases hk : g.key.beq r
    · rw [if_pos hk]
      simp [groupTaxSumQ, Dec.toRat_add]
      ring
    · rw [if_neg hk]
      simp [groupTaxSumQ] at ih ⊢
      rw [ih]
      ring

theorem foldl_taxSum (ns : List ItemNums) :
    ∀ acc : Totals, groupTaxSumQ ((ns.foldl stepTotals acc).groups)
      = groupTaxSumQ acc.groups + ((ns.map (fun n => n.vat_amount.toRat)).sum) := by
  induction ns with
  | nil => intro acc; simp
  | cons n rest ih =>
    intro acc
    rw [List.foldl_cons, List.map_cons, List.sum_cons, ih]
    have : groupTaxSumQ ((stepTotals acc n).groups)
        = groupTaxSumQ acc.groups + n.vat_amount.toRat := addGroup_taxSum _ _ _ _
    rw [this]
    ring

theorem foldl_total_tax (ns : List ItemNums) :
    ∀ acc : Totals, ((ns.foldl stepTotals acc).total_tax).toRat
      = acc.total_tax.toRat + ((ns.map (fun n => n.vat_amount.toRat)).sum) := by
  induction ns with
  | nil => intro acc; simp
  | cons n rest ih =>
    intro acc
    rw [List.foldl_cons, List.map_cons, List.sum_cons, ih]
    have : ((stepTotals acc n).total_tax).toRat
        = acc.total_tax.toRat + n.vat_amount.toRat := Dec.toRat_add _ _
    rw [this]
    ring

/-- The exact sum of the groups' tax amounts is the exact accumulated total
tax. -/
theorem foldTotals_tax_eq (ns : List ItemNums) :
    groupTaxSumQ ((foldTotals ns).groups) = ((foldTotals ns).total_tax).toRat := by
  rw [foldTotals, foldl_taxSum, foldl_total_tax]
  simp [groupTaxSumQ, Dec.toRat_zero2]

theorem foldl_without_tax_exp (ns : List ItemNums) :
    ∀ acc : Totals, (∀ n ∈ ns, n.line_total.exp = 2) → acc.total_without_tax.exp = 2 →
      ((ns.foldl stepTotals acc).total_without_tax).exp = 2 := by
  induction ns with
  | nil => intro acc _ hacc; exact hacc
  | cons n rest ih =>
    intro acc hns hacc
    rw [List.foldl_cons]
    refine ih _ (fun m hm => hns m (by simp [hm])) ?_
    show (acc.total_without_tax.add n.line_total).exp = 2
    rw [Dec.add]
    simp [hacc, hns n (by simp)]

theorem foldTotals_without_tax_exp {ns : List ItemNums}
    (h : ∀ n ∈ ns, n.line_total.exp = 2) :
    ((foldTotals ns).total_without_tax).exp = 2 :=
  foldl_without_tax_exp ns _ h rfl

/-! ## Reading the generated document back -/

theorem map_taxSubtotal_filter_self (gs : List VatGroup) :
    (gs.map taxSubtotalXml).filter (fun c => c.tag = "cac:TaxSubtotal")
      = gs.map taxSubtotalXml := by
  rw [List.filter_eq_self]
  intro a ha
  obtain ⟨g, _, rfl⟩ := List.mem_map.mp ha
  simp [taxSubtotalXml, Xml.tag]

theorem map_taxSubtotal_filter_ne (gs : List VatGroup) (t : String)
    (h : t ≠ "cac:TaxSubtotal") :
    (gs.map taxSubtotalXml).filter (fun c => c.tag = t) = [] := by
  rw [List.filter_eq_nil_iff]
  intro a ha
  obtain ⟨g, _, rfl⟩ := List.mem_map.mp ha
  simp [taxSubtotalXml, Xml.tag]
  exact fun he => h he.symm

theorem children_taxTotalXml_subtotals (t : Totals) :
    childrenNamed (taxTotalXml t) "cac:TaxSubtotal" = t.groups.map taxSubtotalXml := by
  simp only [childrenNamed, taxTotalXml, Xml.children, List.filter_cons]
  rw [map_taxSubtotal_filter_self]
  simp [amountElem, leafA, Xml.tag]

theorem children_taxTotalXml_amount (t : Totals) :
    childrenNamed (taxTotalXml t) "cbc:TaxAmount"
      = [amountElem "cbc:TaxAmount" t.total_tax] := by
  simp only [childrenNamed, taxTotalXml, Xml.children, List.filter_cons]
  rw [map_taxSubtotal_filter_ne t.groups "cbc:TaxAmount" (by simp)]
  simp [amountElem, leafA, Xml.tag]

theorem findAll_subtotals_build (sup buy : User) (items : List Item) (t : Totals)
    (ns : List ItemNums) (iid idate ddate : String) :
    findAllPath (buildInvoice sup buy items t ns iid idate ddate)
        ["cac:TaxTotal", "cac:TaxSubtotal"]
      = t.groups.map taxSubtotalXml := by
  rw [findAllPath, children_taxTotal]
  simp [findAllPath, children_taxTotalXml_subtotals]

theorem findtext_taxAmount_build (sup buy : User) (items : List Item) (t : Totals)
    (ns : List ItemNums) (iid idate ddate : String) :
    findtext (buildInvoice sup buy items t ns iid idate ddate)
        ["cac:TaxTotal", "cbc:TaxAmount"]
      = some (fmt_amount t.total_tax) := by
  rw [findtext, findAllPath, children_taxTotal]
  simp [findAllPath, children_taxTotalXml_amount, amountElem, leafA, Xml.text]

theorem findtext_monetary_build (sup buy : User) (items : List Item) (t : Totals)
    (ns : List ItemNums) (iid idate ddate : String) (tg : String) (v : Dec)
    (hv : childrenNamed (legalMonetaryXml t) tg = [amountElem tg v]) :
    findtext (buildInvoice sup buy items t ns iid idate ddate)
        ["cac:LegalMonetaryTotal", tg]
      = some (fmt_amount v) := by
  rw [findtext, findAllPath, children_monetary]
  simp [findAllPath, hv, amountElem, leafA, Xml.text]

theorem children_monetary_payable (t : Totals) :
    childrenNamed (legalMonetaryXml t) "cbc:PayableAmount"
      = [amountElem "cbc:PayableAmount" (t.total_without_tax.add t.total_tax)] := by
  simp [legalMonetaryXml, childrenNamed, Xml.children, amountElem, leafA, Xml.tag]

theorem children_monetary_taxIncl (t : Totals) :
    childrenNamed (legalMonetaryXml t) "cbc:TaxInclusiveAmount"
      = [amountElem "cbc:TaxInclusiveAmount" (t.total_without_tax.add t.total_tax)] := by
  simp [legalMonetaryXml, childrenNamed, Xml.children, amountElem, leafA, Xml.tag]

theorem children_monetary_lineExt (t : Totals) :
    childrenNamed (legalMonetaryXml t) "cbc:LineExtensionAmount"
      = [amountElem "cbc:LineExtensionAmount" t.total_without_tax] := by
  simp [legalMonetaryXml, childrenNamed, Xml.children, amountElem, leafA, Xml.tag]

theorem findtext_buyerRef_build (sup buy : User) (items : List Item) (t : Totals)
    (ns : List ItemNums) (iid idate ddate : String) :
    findtext (buildInvoice sup buy items t ns iid idate ddate) ["cbc:BuyerReference"]
      = some buy.company := by
  rw [findtext, findAllPath, children_buyerRef]
  simp [findAllPath, leaf, Xml.text]

theorem findtext_id_build (sup buy : User) (items : List Item) (t : Totals)
    (ns : List ItemNums) (iid idate ddate : String) :
    findtext (buildInvoice sup buy items t ns iid idate ddate) ["cbc:ID"] = some iid := by
  rw [findtext, findAllPath, children_id]
  simp [findAllPath, leaf, Xml.text]

theorem findtext_issueDate_build (sup buy : User) (items : List Item) (t : Totals)
    (ns : List ItemNums) (iid idate ddate : String) :
    findtext (buildInvoice sup buy items t ns iid idate ddate) ["cbc:IssueDate"]
      = some idate := by
  rw [findtext, findAllPath, children_issueDate]
  simp [findAllPath, leaf, Xml.text]

theorem findtext_currency_build (sup buy : User) (items : List Item) (t : Totals)
    (ns : List ItemNums) (iid idate ddate : String) :
    findtext (buildInvoice sup buy items t ns iid idate ddate) ["cbc:DocumentCurrencyCode"]
      = some "EUR" := by
  rw [findtext, findAllPath, children_currency]
  simp [findAllPath, leaf, Xml.text]

theorem findtext_supplierName_build (sup buy : User) (items : List Item) (t : Totals)
    (ns : List ItemNums) (iid idate ddate : String) :
    findtext (buildInvoice sup buy items t ns iid idate ddate)
        ["cac:AccountingSupplierParty", "cac:Party", "cac:PartyName", "cbc:Name"]
      = some sup.company := by
  rw [findtext, findAllPath, children_supplierParty]
  rcases htr : truthy sup.peppol_id with _ | pid <;>
    simp [findAllPath, childrenNamed, supplierPartyXml, htr, Xml.children, Xml.tag, Xml.text,
      leaf, leafA]

theorem findtext_buyerName_build (sup buy : User) (items : List Item) (t : Totals)
    (ns : List ItemNums) (iid idate ddate : String) :
    findtext (buildInvoice sup buy items t ns iid idate ddate)
        ["cac:AccountingCustomerParty", "cac:Party", "cac:PartyName", "cbc:Name"]
      = some buy.company := by
  rw [findtext, findAllPath, children_customerParty]
  rcases htr : truthy buy.peppol_id with _ | pid <;>
    simp [findAllPath, childrenNamed, customerPartyXml, htr, Xml.children, Xml.tag, Xml.text,
      leaf, leafA]

theorem lineExt_of_invoiceLines (items : List Item) (ns : List ItemNums) (i : ℕ)
    (hlen : items.length = ns.length) :
    (invoiceLines items ns i).map (fun l => findtext l ["cbc:LineExtensionAmount"])
      = ns.map (fun n => some (fmt_amount n.line_total)) := by
  induction items generalizing ns i with
  | nil =>
    cases ns with
    | nil => rfl
    | cons _ _ => simp at hlen
  | cons it rest ih =>
    cases ns with
    | nil => simp at hlen
    | cons n nrest =>
      rw [invoiceLines, List.map_cons, List.map_cons]
      have hhead : findtext (invoiceLineXml i it n) ["cbc:LineExtensionAmount"]
          = some (fmt_amount n.line_total) := by
        simp [invoiceLineXml, findtext, findAllPath, childrenNamed, Xml.children, Xml.tag,
          Xml.text, amountElem, leafA, leaf]
      rw [hhead, ih nrest (i + 1) (by simpa using hlen)]

theorem mapItems_length {items : List Item} {ns : List ItemNums}
    (h : mapItems items = .ok ns) : items.length = ns.length := by
  induction items generalizing ns with
  | nil =>
    rw [mapItems] at h
    cases h
    rfl
  | cons it rest ih =>
    rw [mapItems] at h
    cases hn : itemNums it with
    | error e =>
      rw [hn] at h
      exact absurd (show (Except.error e : Except String (List ItemNums)) = .ok ns from h)
        (by simp)
    | ok n0 =>
      rw [hn] at h
      cases hrest : mapItems rest with
      | error e =>
        rw [hrest] at h
        exact absurd (show (Except.error e : Except String (List ItemNums)) = .ok ns from h)
          (by simp)
      | ok ns0 =>
        rw [hrest] at h
        have h2 : Except.ok (ε := String) (n0 :: ns0) = .ok ns := h
        have h3 := (Except.ok.injEq _ _).mp h2
        subst h3
        simpa using ih hrest

theorem percent_of_subtotal (g : VatGroup) :
    findtext (taxSubtotalXml g) ["cac:TaxCategory", "cbc:Percent"]
      = some (fmt_amount (g.key.mul (dec 100 0))) := by
  simp [taxSubtotalXml, findtext, findAllPath, childrenNamed, Xml.children, Xml.tag, Xml.text,
    amountElem, leafA, leaf]

theorem taxAmount_of_subtotal (g : VatGroup) :
    findtext (taxSubtotalXml g) ["cbc:TaxAmount"] = some (fmt_amount g.tax) := by
  simp [taxSubtotalXml, findtext, findAllPath, childrenNamed, Xml.children, Xml.tag, Xml.text,
    amountElem, leafA, leaf]

theorem sumVat_groups (gs : List VatGroup) (acc : Dec) :
    sumVat (gs.map taxSubtotalXml) acc
      = .ok (gs.foldl (fun a g => a.add (round2 g.tax)) acc) := by
  induction gs generalizing acc with
  | nil => rfl
  | cons g rest ih =>
    rw [List.map_cons, sumVat, taxAmount_of_subtotal]
    show (if fmt_amount g.tax = "" then sumVat (rest.map taxSubtotalXml) acc
      else do
        let d ← pyFloat (fmt_amount g.tax)
        sumVat (rest.map taxSubtotalXml) (acc.add d)) = _
    rw [if_neg (fmt_amount_ne_empty g.tax), pyFloat_fmt]
    show sumVat (rest.map taxSubtotalXml) (acc.add (round2 g.tax)) = _
    rw [ih, List.foldl_cons]

theorem parseTotal_fmt (v : Dec) : parseTotal (some (fmt_amount v)) = .ok (round2 v) := by
  rw [parseTotal]
  show (if fmt_amount v = "" then pure (dec 0 0) else pyFloat (fmt_amount v)) = _
  rw [if_neg (fmt_amount_ne_empty v), pyFloat_fmt]

/-- Extraction of a freshly generated document, in full. -/
theorem process_build (sup buy : User) (items : List Item) (t : Totals)
    (ns : List ItemNums) (iid idate ddate : String) :
    process_incoming_invoice (buildInvoice sup buy items t ns iid idate ddate)
      = .ok ⟨some iid, some idate, some "EUR", some sup.company, some buy.company,
             round2 (t.total_without_tax.add t.total_tax),
             t.groups.foldl (fun a g => a.add (round2 g.tax)) (dec 0 0)⟩ := by
  rw [process_incoming_invoice, findtext_id_build, findtext_issueDate_build,
    findtext_currency_build, findtext_supplierName_build, findtext_buyerName_build,
    findtext_monetary_build sup buy items t ns iid idate ddate "cbc:PayableAmount"
      (t.total_without_tax.add t.total_tax) (children_monetary_payable t),
    findAll_subtotals_build, parseTotal_fmt, sumVat_groups]
  rfl

/-! ## Support lemmas for the claims -/

theorem Dec.add_zero0 (a : Dec) : a.add (dec 0 0) = a := by
  obtain ⟨m, e⟩ := a
  rw [Dec.add]
  simp [dec]

theorem cents_add_cents (a b : Dec) (ha2 : a.exp = 2) (ham : 0 ≤ a.mant) (hbm : 0 ≤ b.mant) :
    (a.add b).cents = a.cents + b.cents := by
  rw [Dec.cents_eq_roundQ, Dec.cents_eq_roundQ, Dec.cents_eq_roundQ, Dec.toRat_add]
  have hval : a.toRat = ((a.mant : ℚ)) / 100 := by
    rw [Dec.toRat_def, ha2]
    norm_num
  rw [hval, roundQ_cents_add a.mant b.toRat ham ((Dec.toRat_nonneg_iff b).mpr hbm),
    roundQ_intCast]

theorem clamp_idem (d : Dec) :
    (if (if d.blt (dec 0 0) then dec 0 0 else d).blt (dec 0 0) then dec 0 0
     else if d.blt (dec 0 0) then dec 0 0 else d)
      = if d.blt (dec 0 0) then dec 0 0 else d := by
  by_cases hb : d.blt (dec 0 0)
  · simp [hb]
  · simp [hb]

theorem itemNums_clampItem (it : Item) : itemNums (clampItem it) = itemNums it := by
  obtain ⟨nm, ds, qf, pf, vf⟩ := it
  rcases vf with _ | v
  · rfl
  · rcases v with d | s
    · show itemNums ⟨nm, ds, qf, pf, some (.num (if d.blt (dec 0 0) then dec 0 0 else d))⟩
        = itemNums ⟨nm, ds, qf, pf, some (.num d)⟩
      rw [itemNums, itemNums]
      cases hq : d0 (qf.getD (.num (dec 0 0))) with
      | error e => rfl
      | ok q =>
        cases hp : d2 (pf.getD (.num (dec 0 0))) with
        | error e => rfl
        | ok up =>
          show Except.ok (ε := String) (⟨q, up, round2 (q.mul up), _, _⟩ : ItemNums) = .ok ⟨q, up, round2 (q.mul up), _, _⟩
          rw [clamp_idem]
    · rfl

theorem mapItems_clamp (items : List Item) :
    mapItems (items.map clampItem) = mapItems items := by
  induction items with
  | nil => rfl
  | cons it rest ih =>
    rw [List.map_cons, mapItems, mapItems, itemNums_clampItem, ih]

theorem invoiceLines_clamp (items : List Item) (ns : List ItemNums) (i : ℕ) :
    invoiceLines (items.map clampItem) ns i = invoiceLines items ns i := by
  induction items generalizing ns i with
  | nil => rfl
  | cons it rest ih =>
    cases ns with
    | nil => rfl
    | cons n nrest =>
      rw [List.map_cons, invoiceLines, invoiceLines, ih]
      rfl

theorem mapItems_numItems (es : List (Dec × Dec × Dec)) :
    mapItems (es.map (fun e => numItem e.1 e.2.1 e.2.2)) = .ok (es.map numsOf) := by
  induction es with
  | nil => rfl
  | cons e rest ih =>
    rw [List.map_cons, mapItems, ih]
    rfl

theorem parseSubAmount_some (s : String) :
    parseSubAmount (some s)
      = if s = "" then dec 0 0
        else (match pyFloat s with | .ok q => q | .error _ => dec 0 0) := rfl

theorem sumVat_ok_eq {l : List Xml} {acc v : Dec} (h : sumVat l acc = .ok v) :
    v = (l.map (fun ts => parseSubAmount (findtext ts ["cbc:TaxAmount"]))).foldl
      Dec.add acc := by
  induction l generalizing acc with
  | nil =>
    rw [sumVat] at h
    have h2 := (Except.ok.injEq _ _).mp h
    rw [List.map_nil, List.foldl_nil, h2]
  | cons ts rest ih =>
    rw [sumVat] at h
    rw [List.map_cons, List.foldl_cons]
    cases hft : findtext ts ["cbc:TaxAmount"] with
    | none =>
      rw [hft] at h
      rw [show parseSubAmount none = dec 0 0 from rfl, Dec.add_zero0]
      exact ih h
    | some s =>
      rw [hft] at h
      have h2 : (if s = "" then sumVat rest acc
          else do
            let d ← pyFloat s
            sumVat rest (acc.add d)) = .ok v := h
      rw [parseSubAmount_some]
      by_cases hs : s = ""
      · rw [if_pos hs] at h2
        rw [if_pos hs, Dec.add_zero0]
        exact ih h2
      · rw [if_neg hs] at h2
        rw [if_neg hs]
        cases hpf : pyFloat s with
        | error e =>
          rw [hpf] at h2
          exact absurd (show (Except.error e : Except String Dec) = .ok v from h2) (by simp)
        | ok q =>
          rw [hpf] at h2
          have h3 : sumVat rest (acc.add q) = .ok v := h2
          exact ih h3

/-- Destructuring a successful extraction: the vat component came from the
`sumVat` loop. -/
theorem process_ok_vat {doc : Xml} {s : InvoiceSummary}
    (h : process_incoming_invoice doc = .ok s) :
    sumVat (findAllPath doc ["cac:TaxTotal", "cac:TaxSubtotal"]) (dec 0 0) = .ok s.vat := by
  rw [process_incoming_invoice] at h
  cases ht : parseTotal (findtext doc ["cac:LegalMonetaryTotal", "cbc:PayableAmount"]) with
  | error e =>
    rw [ht] at h
    exact absurd (show (Except.error e : Except String InvoiceSummary) = .ok s from h) (by simp)
  | ok tot =>
    rw [ht] at h
    cases hv : sumVat (findAllPath doc ["cac:TaxTotal", "cac:TaxSubtotal"]) (dec 0 0) with
    | error e =>
      rw [hv] at h
      exact absurd (show (Except.error e : Except String InvoiceSummary) = .ok s from h) (by simp)
    | ok v =>
      rw [hv] at h
      have h2 : Except.ok (ε := String)
          (⟨findtext doc ["cbc:ID"], findtext doc ["cbc:IssueDate"],
            findtext doc ["cbc:DocumentCurrencyCode"],
            findtext doc ["cac:AccountingSupplierParty", "cac:Party", "cac:PartyName",
              "cbc:Name"],
            findtext doc ["cac:AccountingCustomerParty", "cac:Party", "cac:PartyName",
              "cbc:Name"],
            tot, v⟩ : InvoiceSummary) = .ok s := h
      have h3 := (Except.ok.injEq _ _).mp h2
      rw [← h3]

/-- A payable text that is absent, empty or numeric parses without raising,
to its value-or-zero. -/
theorem parseTotal_ok_of_numericOk {t? : Option String} (h : numericOk t? = true) :
    parseTotal t? = .ok (parseSubAmount t?) := by
  cases t? with
  | none => rfl
  | some t =>
    rw [parseTotal, parseSubAmount_some]
    by_cases ht : t = ""
    · rw [if_pos ht, if_pos ht]
      rfl
    · rw [if_neg ht, if_neg ht]
      rw [numericOk] at h
      cases hpf : pyFloat t with
      | error e =>
        exfalso
        rw [hpf] at h
        simp [ht] at h
      | ok q =>
        rfl

/-- The VAT loop raises on no subtotal whose amount text is absent, empty
or numeric, and computes the parse-or-zero sum. -/
theorem sumVat_ok_of_numericOk {l : List Xml}
    (h : ∀ ts ∈ l, numericOk (findtext ts ["cbc:TaxAmount"]) = true) :
    ∀ acc : Dec,
      sumVat l acc
        = .ok ((l.map (fun ts => parseSubAmount (findtext ts ["cbc:TaxAmount"]))).foldl
            Dec.add acc) := by
  induction l with
  | nil => intro acc; rfl
  | cons ts rest ih =>
    intro acc
    have hhead := h ts (by simp)
    have htail : ∀ u ∈ rest, numericOk (findtext u ["cbc:TaxAmount"]) = true :=
      fun u hu => h u (by simp [hu])
    rw [sumVat, List.map_cons, List.foldl_cons]
    cases hft : findtext ts ["cbc:TaxAmount"] with
    | none =>
      rw [show parseSubAmount none = dec 0 0 from rfl, Dec.add_zero0]
      exact ih htail acc
    | some t =>
      rw [parseSubAmount_some]
      show (if t = "" then sumVat rest acc
        else do
          let d ← pyFloat t
          sumVat rest (acc.add d)) = _
      rw [hft, numericOk] at hhead
      by_cases ht : t = ""
      · rw [if_pos ht, if_pos ht, Dec.add_zero0]
        exact ih htail acc
      · rw [if_neg ht, if_neg ht]
        cases hpf : pyFloat t with
        | error e =>
          exfalso
          rw [hpf] at hhead
          simp [ht] at hhead
        | ok q =>
          exact ih htail (acc.add q)

/-! ## Claim C1 — VAT grouping -/

/-- Claim C1, counterexample.  The claim asserts that the sum of the
per-subtotal `TaxAmount` values (each independently rounded half-up) equals
the top-level `TaxTotal/TaxAmount` to the cent.  On two items with line
totals 0.50 (21 %) and 1.75 (6 %), the per-rate taxes are 0.105 each:
the two subtotals both print `"0.11"`, summing to 0.22, while the top-level
amount is the rounding of the exact sum 0.21 — printed `"0.21"`.  The last
conjunct records that 0.11 + 0.11 and 0.21 differ as numbers. -/
theorem C1_counterexample :
    (generate_invoice_xml supC buyC driftItems "INV-1" "2024-01-01" "2024-01-31").map
        (fun doc => (subtotalTaxAmountTexts doc, topTaxAmountText doc))
      = .ok ([some "0.11", some "0.11"], some "0.21")
    ∧ pyFloat "0.11" = .ok (dec 11 2)
    ∧ pyFloat "0.21" = .ok (dec 21 2)
    ∧ ((dec 11 2).add (dec 11 2)).beq (dec 21 2) = false :=
  ⟨by decide, by decide, by decide, by decide⟩

/-- Claim C1, amended.  For a list of items spanning K distinct (clamped)
VAT rates, the document holds exactly K `TaxSubtotal` elements, and the
top-level `TaxTotal/TaxAmount` is the rounding of the exact total tax,
which equals the exact (unrounded) sum of the K groups' tax amounts; the
sum of the K individually rounded `TaxAmount` texts can differ from the
top-level amount by rounding drift (see the counterexample). -/
theorem C1_vat_grouping (sup buy : User) (items : List Item) (iid idate ddate : String)
    (ns : List ItemNums) (doc : Xml)
    (hns : mapItems items = .ok ns)
    (hdoc : generate_invoice_xml sup buy items iid idate ddate = .ok doc) :
    (topTaxSubtotals doc).length = (firstOcc (ns.map ItemNums.vat_pct)).length
      ∧ topTaxAmountText doc = some (fmt_amount ((foldTotals ns).total_tax))
      ∧ groupTaxSumQ ((foldTotals ns).groups) = ((foldTotals ns).total_tax).toRat := by
  obtain ⟨ns', hns', rfl⟩ := generate_ok_elim hdoc
  rw [hns] at hns'
  have hnseq := (Except.ok.injEq _ _).mp hns'
  subst hnseq
  refine ⟨?_, ?_, foldTotals_tax_eq ns⟩
  · have hk := congrArg List.length (foldTotals_keys ns)
    simp only [keysOf, List.length_map] at hk
    simp only [topTaxSubtotals]
    rw [findAll_subtotals_build, List.length_map, hk]
  · simp only [topTaxAmountText]
    exact findtext_taxAmount_build sup buy items (foldTotals ns) ns iid idate ddate

/-- Claim C1, witness: the amended statement at a concrete two-rate input. -/
theorem C1_vat_grouping_witness :
    (topTaxSubtotals wDoc).length = (firstOcc (wNs.map ItemNums.vat_pct)).length
      ∧ topTaxAmountText wDoc = some (fmt_amount ((foldTotals wNs).total_tax))
      ∧ groupTaxSumQ ((foldTotals wNs).groups) = ((foldTotals wNs).total_tax).toRat :=
  C1_vat_grouping supC buyC wItems "INV-W" "2024-02-01" "2024-03-02" wNs wDoc rfl rfl

/-! ## Claim C2 — totals identity -/

/-- Claim C2, counterexample.  The claim asserts
`PayableAmount = TaxInclusiveAmount = LineExtensionAmount + TaxAmount`
for every generated document, always.  With line totals 0.50 (1 % VAT) and
−0.51 (0 %), the exact totals are −0.01 without tax and 0.005 of tax: the
document prints payable `"-0.01"`, line extension `"-0.01"` and tax
`"0.01"`, and −0.01 ≠ −0.01 + 0.01: the two independent half-away-from-zero
roundings moved in opposite directions. -/
theorem C2_counterexample :
    (generate_invoice_xml supC buyC mixedSignItems "INV-2" "2024-01-01" "2024-01-31").map
        (fun doc => (monetaryText doc "cbc:PayableAmount",
          monetaryText doc "cbc:TaxInclusiveAmount",
          monetaryText doc "cbc:LineExtensionAmount", topTaxAmountText doc))
      = .ok (some "-0.01", some "-0.01", some "-0.01", some "0.01")
    ∧ pyFloat "-0.01" = .ok (dec (-1) 2)
    ∧ pyFloat "0.01" = .ok (dec 1 2)
    ∧ ((dec (-1) 2).add (dec 1 2)).beq (dec (-1) 2) = false :=
  ⟨by decide, by decide, by decide, by decide⟩

/-- Claim C2, amended.  For every generated document, unconditionally:
`PayableAmount` equals `TaxInclusiveAmount` (both print the rounding of the
same exact sum), and the amount texts are the independent roundings of the
exact running totals.  The additive identity
`payable cents = line-extension cents + tax cents` holds provided the two
exact totals are non-negative (equivalently, their mantissas are) — with
mixed signs it can fail by one cent, as the counterexample shows; that
proviso scopes only the final, conditional conjunct. -/
theorem C2_totals_identity (sup buy : User) (items : List Item) (iid idate ddate : String)
    (ns : List ItemNums) (doc : Xml)
    (hns : mapItems items = .ok ns)
    (hdoc : generate_invoice_xml sup buy items iid idate ddate = .ok doc) :
    monetaryText doc "cbc:PayableAmount" = monetaryText doc "cbc:TaxInclusiveAmount"
      ∧ monetaryText doc "cbc:PayableAmount"
          = some (fmt_amount ((foldTotals ns).total_without_tax.add (foldTotals ns).total_tax))
      ∧ monetaryText doc "cbc:LineExtensionAmount"
          = some (fmt_amount (foldTotals ns).total_without_tax)
      ∧ topTaxAmountText doc = some (fmt_amount (foldTotals ns).total_tax)
      ∧ (0 ≤ (foldTotals ns).total_without_tax.mant → 0 ≤ (foldTotals ns).total_tax.mant →
          ((foldTotals ns).total_without_tax.add (foldTotals ns).total_tax).cents
            = (foldTotals ns).total_without_tax.cents + (foldTotals ns).total_tax.cents) := by
  obtain ⟨ns', hns', rfl⟩ := generate_ok_elim hdoc
  rw [hns] at hns'
  have hnseq := (Except.ok.injEq _ _).mp hns'
  subst hnseq
  have hpay := findtext_monetary_build sup buy items (foldTotals ns) ns iid idate ddate
    "cbc:PayableAmount" _ (children_monetary_payable _)
  have hincl := findtext_monetary_build sup buy items (foldTotals ns) ns iid idate ddate
    "cbc:TaxInclusiveAmount" _ (children_monetary_taxIncl _)
  have hline := findtext_monetary_build sup buy items (foldTotals ns) ns iid idate ddate
    "cbc:LineExtensionAmount" _ (children_monetary_lineExt _)
  refine ⟨?_, ?_, ?_, ?_, ?_⟩
  · simp only [monetaryText]
    rw [hpay, hincl]
  · simp only [monetaryText]
    exact hpay
  · simp only [monetaryText]
    exact hline
  · simp only [topTaxAmountText]
    exact findtext_taxAmount_build sup buy items (foldTotals ns) ns iid idate ddate
  · intro hwt htx
    exact cents_add_cents _ _ (foldTotals_without_tax_exp (mapItems_ok_line_exp hns)) hwt htx

/-- Claim C2, witness: the amended statement at a concrete all-positive
input, the conditional conjunct's non-negativity conditions discharged
there as well. -/
theorem C2_totals_identity_witness :
    monetaryText wDoc "cbc:PayableAmount" = monetaryText wDoc "cbc:TaxInclusiveAmount"
      ∧ monetaryText wDoc "cbc:PayableAmount"
          = some (fmt_amount ((foldTotals wNs).total_without_tax.add (foldTotals wNs).total_tax))
      ∧ monetaryText wDoc "cbc:LineExtensionAmount"
          = some (fmt_amount (foldTotals wNs).total_without_tax)
      ∧ topTaxAmountText wDoc = some (fmt_amount (foldTotals wNs).total_tax)
      ∧ ((foldTotals wNs).total_without_tax.add (foldTotals wNs).total_tax).cents
          = (foldTotals wNs).total_without_tax.cents + (foldTotals wNs).total_tax.cents := by
  obtain ⟨h1, h2, h3, h4, h5⟩ :=
    C2_totals_identity supC buyC wItems "INV-W" "2024-02-01" "2024-03-02" wNs wDoc rfl rfl
  exact ⟨h1, h2, h3, h4, h5 (by decide) (by decide)⟩

/-! ## Claim C3 — round-trip stability -/

/-- Claim C3, counterexample.  The claim asserts the extracted `vat` equals
the generator's rounded total tax to the cent.  On the two-rate drift input
the extractor sums the two rounded subtotal amounts (0.11 + 0.11 = 0.22)
while the generator's rounded total tax is 0.21. -/
theorem C3_counterexample :
    ((generate_invoice_xml supC buyC driftItems "INV-3" "2024-01-01" "2024-01-31").bind
        process_incoming_invoice).map (fun s => s.vat)
      = .ok (((dec 0 0).add (dec 11 2)).add (dec 11 2))
    ∧ ((dec 0 0).add (dec 11 2)).add (dec 11 2) = dec 22 2
    ∧ (computeTotals driftItems).map (fun t => round2 t.total_tax) = .ok (dec 21 2)
    ∧ (dec 22 2).beq (dec 21 2) = false :=
  ⟨by decide, by decide, by decide, by decide⟩

/-- Claim C3, amended.  Extracting a freshly generated document yields a
summary whose supplier and buyer names are the input parties' company names
and whose `total` is the generator's rounded payable total exactly; its
`vat` is the left-to-right sum of the individually rounded per-rate tax
amounts, which equals the generator's rounded total tax whenever no
per-group rounding drift occurs (it always does for a single rate), but can
differ from it by a cent otherwise. -/
theorem C3_round_trip (sup buy : User) (items : List Item) (iid idate ddate : String)
    (ns : List ItemNums) (doc : Xml)
    (hns : mapItems items = .ok ns)
    (hdoc : generate_invoice_xml sup buy items iid idate ddate = .ok doc) :
    process_incoming_invoice doc
      = .ok ⟨some iid, some idate, some "EUR", some sup.company, some buy.company,
             round2 ((foldTotals ns).total_without_tax.add (foldTotals ns).total_tax),
             (foldTotals ns).groups.foldl (fun a g => a.add (round2 g.tax)) (dec 0 0)⟩ := by
  obtain ⟨ns', hns', rfl⟩ := generate_ok_elim hdoc
  rw [hns] at hns'
  have hnseq := (Except.ok.injEq _ _).mp hns'
  subst hnseq
  exact process_build sup buy items (foldTotals ns) ns iid idate ddate

/-- Claim C3, witness: the amended statement at a concrete input. -/
theorem C3_round_trip_witness :
    process_incoming_invoice wDoc
      = .ok ⟨some "INV-W", some "2024-02-01", some "EUR", some supC.company, some buyC.company,
             round2 ((foldTotals wNs).total_without_tax.add (foldTotals wNs).total_tax),
             (foldTotals wNs).groups.foldl (fun a g => a.add (round2 g.tax)) (dec 0 0)⟩ :=
  C3_round_trip supC buyC wItems "INV-W" "2024-02-01" "2024-03-02" wNs wDoc rfl rfl

/-! ## Claim C4 — generation fail-fast -/

/-- Claim C4, counterexample.  The claim asserts that a line item with a
missing numeric field makes generation fail with no XML produced.  An item
dict with no fields at all generates a complete zero-total document
instead: `item.get(key, 0)` substitutes `0` for every missing field. -/
theorem C4_counterexample :
    (generate_invoice_xml supC buyC [{}] "INV-4" "2024-01-01" "2024-01-31").map
        (fun doc => monetaryText doc "cbc:PayableAmount")
      = .ok (some "0.00") := by
  decide

/-- Claim C4, amended.  A line item whose `quantity`, `unit_price` or
`vat_pct` holds a non-numeric value makes `generate_invoice_xml` fail at
the decimal conversion with no document returned; a missing field, by
contrast, defaults to `0` and generation succeeds. -/
theorem C4_fail_fast (sup buy : User) (items : List Item) (iid idate ddate : String)
    (h : items.any Item.hasRawNumeric = true) :
    ∃ e, generate_invoice_xml sup buy items iid idate ddate = .error e := by
  obtain ⟨e, he⟩ := mapItems_error_of_raw h
  exact ⟨e, generate_error sup buy iid idate ddate he⟩

/-- Claim C4, witness: a non-numeric quantity aborts generation. -/
theorem C4_fail_fast_witness :
    ∃ e, generate_invoice_xml supC buyC [{ quantity := some (.raw "abc") }]
      "INV-4W" "2024-01-01" "2024-01-31" = .error e :=
  C4_fail_fast supC buyC [{ quantity := some (.raw "abc") }] "INV-4W" "2024-01-01" "2024-01-31"
    (by decide)

/-! ## Claim C5 — extraction tolerance -/

/-- Claim C5, counterexample.  The claim asserts that a `PayableAmount`
that is present but not parsable as a number is treated as `0.0`, not an
error.  The code guards only against a falsy (absent or empty) text:
`float("abc")` raises `ValueError` out of the extraction. -/
theorem C5_counterexample :
    process_incoming_invoice badPayableDoc = .error (floatErr "abc") := by
  decide

/-- Claim C5, amended.  Extraction of any well-formed document is
best-effort for absent fields: as long as every numeric text that is
present is parsable (`numericOk` — which in particular holds whenever the
fields are merely absent or empty), extraction succeeds, and every summary
field is the corresponding `findtext` result — Python `None` for an absent
field — with an absent or empty payable amount and absent or empty subtotal
amounts degrading to zero.  Only a present, non-empty, non-numeric amount
text escapes this (it raises a `ValueError` out of `float` instead of
being treated as `0.0`, see the counterexample). -/
theorem C5_missing_field_tolerance (doc : Xml)
    (hp : numericOk (findtext doc ["cac:LegalMonetaryTotal", "cbc:PayableAmount"]) = true)
    (hs : ∀ ts ∈ findAllPath doc ["cac:TaxTotal", "cac:TaxSubtotal"],
        numericOk (findtext ts ["cbc:TaxAmount"]) = true) :
    process_incoming_invoice doc
      = .ok ⟨findtext doc ["cbc:ID"], findtext doc ["cbc:IssueDate"],
             findtext doc ["cbc:DocumentCurrencyCode"],
             findtext doc ["cac:AccountingSupplierParty", "cac:Party", "cac:PartyName",
               "cbc:Name"],
             findtext doc ["cac:AccountingCustomerParty", "cac:Party", "cac:PartyName",
               "cbc:Name"],
             parseSubAmount (findtext doc ["cac:LegalMonetaryTotal", "cbc:PayableAmount"]),
             vatSpecSum doc⟩ := by
  rw [process_incoming_invoice, parseTotal_ok_of_numericOk hp,
    sumVat_ok_of_numericOk hs (dec 0 0)]
  rfl

/-- Claim C5, witness: the minimal document `<Invoice></Invoice>` extracts
to the all-absent, all-zero summary without raising. -/
theorem C5_missing_field_tolerance_witness :
    process_incoming_invoice minimalInvoice
      = .ok ⟨none, none, none, none, none, dec 0 0, dec 0 0⟩ :=
  C5_missing_field_tolerance minimalInvoice (by decide) (by decide)

/-! ## Claim C6 — extracted VAT total -/

/-- Claim C6, counterexample.  The claim asserts the extracted VAT total
sums every `TaxSubtotal/TaxAmount` found anywhere in the document, with
unparsable amounts contributing 0.  Both parts fail on the code: a
`TaxSubtotal` of 5.00 nested under `InvoiceLine/TaxTotal` — present in the
document, as the second conjunct exhibits — is not counted, because the
code searches only `TaxTotal` children of the root; and a non-numeric
`TaxAmount` under a top-level `TaxTotal` raises a `ValueError` instead of
contributing 0. -/
theorem C6_counterexample :
    (process_incoming_invoice nestedSubtotalDoc).map (fun s => s.vat) = .ok (dec 0 0)
    ∧ findtext nestedSubtotalDoc
        ["cac:InvoiceLine", "cac:TaxTotal", "cac:TaxSubtotal", "cbc:TaxAmount"]
        = some "5.00"
    ∧ (dec 0 0).beq (dec 500 2) = false
    ∧ process_incoming_invoice rawSubtotalDoc = .error (floatErr "oops") :=
  ⟨by decide, by decide, by decide, by decide⟩

/-- Claim C6, amended.  For every document whose extraction succeeds, the
extracted VAT total is the sum of the parsed `TaxAmount` of every
`TaxSubtotal` child of every top-level `TaxTotal` child of the root (not of
subtotals nested anywhere else), with absent or empty amounts contributing
0; a present non-numeric amount makes the whole extraction raise instead. -/
theorem C6_vat_sum (doc : Xml) (s : InvoiceSummary)
    (h : process_incoming_invoice doc = .ok s) : s.vat = vatSpecSum doc := by
  have hv := process_ok_vat h
  have hs := sumVat_ok_eq hv
  rw [vatSpecSum]
  exact hs

/-- Claim C6, witness: the amended statement at a concrete document with
one parsable and one empty subtotal. -/
theorem C6_vat_sum_witness : w6sum.vat = vatSpecSum w6doc :=
  C6_vat_sum w6doc w6sum (by decide)

/-! ## Claim C7 — line rounding determinism -/

/-- Claim C7, confirmed.  For every list of numeric quantity/price/rate
triples, each generated `InvoiceLine` carries a `LineExtensionAmount` text
equal to `round2(quantity × round2(unit_price))` rendered with exactly two
fractional digits (`fmt_amount` of the rounded product), the quantity kept
at full precision and `round2` rounding half-away-from-zero. -/
theorem C7_rounding_determinism (sup buy : User) (es : List (Dec × Dec × Dec))
    (iid idate ddate : String) (doc : Xml)
    (hdoc : generate_invoice_xml sup buy (es.map (fun e => numItem e.1 e.2.1 e.2.2))
        iid idate ddate = .ok doc) :
    lineExtensionTexts doc
      = es.map (fun e => some (fmt_amount (round2 (e.1.mul (round2 e.2.1))))) := by
  obtain ⟨ns, hns, rfl⟩ := generate_ok_elim hdoc
  rw [mapItems_numItems] at hns
  have hnseq := (Except.ok.injEq _ _).mp hns
  subst hnseq
  simp only [lineExtensionTexts]
  rw [children_invoiceLine, lineExt_of_invoiceLines _ _ _ (by simp), List.map_map]
  rfl

/-- Claim C7, witness: the statement at concrete quantity/price pairs. -/
theorem C7_rounding_determinism_witness :
    lineExtensionTexts w7doc
      = w7es.map (fun e => some (fmt_amount (round2 (e.1.mul (round2 e.2.1))))) :=
  C7_rounding_determinism supC buyC w7es "INV-7" "2024-02-01" "2024-03-02" w7doc rfl

/-! ## Claim C8 — negative VAT clamping -/

/-- Claim C8, confirmed.  Clamping every item's numeric `vat_pct` at zero
before generation produces the identical document (or the identical
failure): the generator itself clamps the rate before its every use — the
grouping key, the tax computation, and both `Percent` texts — so a negative
rate behaves exactly like rate 0. -/
theorem C8_negative_vat_clamped (sup buy : User) (items : List Item)
    (iid idate ddate : String) :
    generate_invoice_xml sup buy (items.map clampItem) iid idate ddate
      = generate_invoice_xml sup buy items iid idate ddate := by
  cases hm : mapItems items with
  | error e =>
    rw [generate_error sup buy iid idate ddate hm,
      generate_error sup buy iid idate ddate ((mapItems_clamp items).trans hm)]
  | ok ns =>
    rw [generate_ok sup buy iid idate ddate hm,
      generate_ok sup buy iid idate ddate ((mapItems_clamp items).trans hm)]
    simp only [buildInvoice, headerElems, List.length_map, invoiceLines_clamp]

/-! ## Claim C9 — determinism and subtotal order -/

/-- Claim C9, confirmed.  The embedded generator is a pure function of its
arguments, so equal inputs give identical documents (and hence identical
serialized bytes); the `TaxSubtotal` elements appear in first-occurrence
order of the distinct clamped VAT rates — the insertion order of the
accumulating `dict`, which Python (3.7+) guarantees — as witnessed by their
`Percent` texts. -/
theorem C9_subtotal_order (sup buy : User) (items : List Item) (iid idate ddate : String)
    (ns : List ItemNums) (doc : Xml)
    (hns : mapItems items = .ok ns)
    (hdoc : generate_invoice_xml sup buy items iid idate ddate = .ok doc) :
    subtotalPercentTexts doc
      = (firstOcc (ns.map ItemNums.vat_pct)).map
          (fun r => some (fmt_amount (r.mul (dec 100 0)))) := by
  obtain ⟨ns', hns', rfl⟩ := generate_ok_elim hdoc
  rw [hns] at hns'
  have hnseq := (Except.ok.injEq _ _).mp hns'
  subst hnseq
  simp only [subtotalPercentTexts, topTaxSubtotals]
  rw [findAll_subtotals_build, List.map_map]
  have hmap : ((foldTotals ns).groups.map
      ((fun ts => findtext ts ["cac:TaxCategory", "cbc:Percent"]) ∘ taxSubtotalXml))
      = (foldTotals ns).groups.map
          (fun g => some (fmt_amount (g.key.mul (dec 100 0)))) := by
    refine List.map_congr_left ?_
    intro g _
    exact percent_of_subtotal g
  rw [hmap]
  have hkeys : (foldTotals ns).groups.map (fun g => some (fmt_amount (g.key.mul (dec 100 0))))
      = (keysOf (foldTotals ns).groups).map (fun r => some (fmt_amount (r.mul (dec 100 0)))) := by
    rw [keysOf, List.map_map]
    rfl
  rw [hkeys, foldTotals_keys]

/-- Claim C9, witness: the subtotal order at a concrete two-rate input. -/
theorem C9_subtotal_order_witness :
    subtotalPercentTexts wDoc
      = (firstOcc (wNs.map ItemNums.vat_pct)).map
          (fun r => some (fmt_amount (r.mul (dec 100 0)))) :=
  C9_subtotal_order supC buyC wItems "INV-W" "2024-02-01" "2024-03-02" wNs wDoc rfl rfl

/-! ## Claim C10 — BuyerReference -/

/-- Claim C10, confirmed.  Every generated document carries a
`BuyerReference` element whose text is the buyer party's company name
verbatim. -/
theorem C10_buyer_reference (sup buy : User) (items : List Item) (iid idate ddate : String)
    (doc : Xml) (hdoc : generate_invoice_xml sup buy items iid idate ddate = .ok doc) :
    buyerReferenceText doc = some buy.company := by
  obtain ⟨ns, hns, rfl⟩ := generate_ok_elim hdoc
  simp only [buyerReferenceText]
  exact findtext_buyerRef_build sup buy items (foldTotals ns) ns iid idate ddate

/-- Claim C10, witness. -/
theorem C10_buyer_reference_witness : buyerReferenceText wDoc = some buyC.company :=
  C10_buyer_reference supC buyC wItems "INV-W" "2024-02-01" "2024-03-02" wDoc rfl

end Peppol

section DecSanity
open Peppol
example : fmt_amount (dec 21 2) = "0.21" := by decide
example : fmt_amount ((dec 1 0).mul (dec 1050 2)) = "10.50" := by decide
example : round2 (dec 105 3) = dec 11 2 := by decide
example : round2 (dec (-105) 3) = dec (-11) 2 := by decide
example : fmt_amount (dec (-1) 3) = "-0.00" := by decide
example : ((dec 21 2).beq (dec 210 3)) = true := by decide
example : fmt_amount ((dec 21 2).mul (dec 100 0)) = "21.00" := by decide

example :
    computeTotals [{ name := some "Test product", quantity := some (.num (dec 1 0)),
                     unit_price := some (.num (dec 10 0)), vat_pct := some (.num (dec 21 2)) }]
      = .ok ⟨[⟨dec 21 2, (dec 0 2).add (dec 1000 2), (dec 0 2).add ((dec 1000 2).mul (dec 21 2))⟩],
             (dec 0 2).add (dec 1000 2), (dec 0 2).add ((dec 1000 2).mul (dec 21 2))⟩ := by decide

example :
    (computeTotals [{ quantity := some (.num (dec 1 0)),
                      unit_price := some (.num (dec 10 0)), vat_pct := some (.num (dec 21 2)) }]).map
      (fun t => (fmt_amount t.total_tax, fmt_amount (t.total_without_tax.add t.total_tax),
                 t.groups.map (fun g => (fmt_amount g.taxable, fmt_amount g.tax))))
      = .ok ("2.10", "12.10", [("10.00", "2.10")]) := by decide

example :
    (generate_invoice_xml ⟨"Sup BV", some "BE123", some "BE", none, none, none, some "0208:99"⟩
        ⟨"Buy NV", none, some "BE", none, none, none, none⟩
        [{ quantity := some (.num (dec 1 0)), unit_price := some (.num (dec 10 0)),
           vat_pct := some (.num (dec 21 2)) }]
        "INV-1" "2024-01-01" "2024-01-31").bind process_incoming_invoice
      = .ok ⟨some "INV-1", some "2024-01-01", some "EUR", some "Sup BV", some "Buy NV",
             dec 1210 2, (dec 0 0).add (dec 210 2)⟩ := by decide

example :
    (generate_invoice_xml ⟨"S", none, some "BE", none, none, none, none⟩
        ⟨"B", none, some "BE", none, none, none, none⟩
        [{ quantity := some (.num (dec 1 0)), unit_price := some (.num (dec 10 0)),
           vat_pct := some (.num (dec 21 2)) }]
        "I" "d" "e").map (fun doc =>
      (lineExtensionTexts doc, subtotalTaxAmountTexts doc, subtotalPercentTexts doc,
       topTaxAmountText doc, monetaryText doc "cbc:PayableAmount", buyerReferenceText doc))
      = .ok ([some "10.00"], [some "2.10"], [some "21.00"], some "2.10", some "12.10", some "B") := by
  decide
end DecSanity
